import Mathlib

/-!
# TestTask: filter-query builder and caching repository

A shallow embedding of `internal/models/builder.go`,
`internal/models/subscription.go`, `internal/cache/redis.go` and
`internal/repository/repository.go`, followed by the properties proved
about them.
-/

namespace TestTask

/-! ## internal/models/builder.go -/

namespace models

/-- QueryBuilder of builder.go. `Args` is `[]interface{}` in the source; only
strings are ever appended to it, so it is a list of strings here. `placeHolder`
is a Go `int`; it counts appended clauses and is a natural number here (it
starts at 0 and is only incremented). -/
structure QueryBuilder where
  Query : String
  placeHolder : Nat
  Args : List String
deriving DecidableEq, Repr

/-- NewQueryBuilder: the base query and an empty argument list (the zero value
of `placeHolder` is 0). The text is the source's, letter for letter. -/
def NewQueryBuilder : QueryBuilder :=
  { Query := "SELECT COALESCE(SUM(price), 0) FROM subsciptions WHERE 1=1"
    placeHolder := 0
    Args := [] }

/-- WithStartDate: `startDate != nil && *startDate != ""` guards the append;
`fmt.Sprintf(" AND start_date >= $%d", n)` is the text followed by the decimal
rendering of `n`. -/
def QueryBuilder.WithStartDate (builder : QueryBuilder) (startDate : Option String) :
    QueryBuilder :=
  match startDate with
  | some v =>
    if v ≠ "" then
      { Query := builder.Query ++ (" AND start_date >= $" ++ toString (builder.placeHolder + 1))
        placeHolder := builder.placeHolder + 1
        Args := builder.Args ++ [v] }
    else builder
  | none => builder

/-- WithEndDate: as WithStartDate, with the clause `end_date <=`. -/
def QueryBuilder.WithEndDate (builder : QueryBuilder) (endDate : Option String) :
    QueryBuilder :=
  match endDate with
  | some v =>
    if v ≠ "" then
      { Query := builder.Query ++ (" AND end_date <= $" ++ toString (builder.placeHolder + 1))
        placeHolder := builder.placeHolder + 1
        Args := builder.Args ++ [v] }
    else builder
  | none => builder

/-- WithUserId: as WithStartDate, with the clause `user_id =`. -/
def QueryBuilder.WithUserId (builder : QueryBuilder) (userId : Option String) :
    QueryBuilder :=
  match userId with
  | some v =>
    if v ≠ "" then
      { Query := builder.Query ++ (" AND user_id = $" ++ toString (builder.placeHolder + 1))
        placeHolder := builder.placeHolder + 1
        Args := builder.Args ++ [v] }
    else builder
  | none => builder

/-- WithServiceName: as WithStartDate, with the clause `service_name =`. -/
def QueryBuilder.WithServiceName (builder : QueryBuilder) (serviceName : Option String) :
    QueryBuilder :=
  match serviceName with
  | some v =>
    if v ≠ "" then
      { Query := builder.Query ++ (" AND service_name = $" ++ toString (builder.placeHolder + 1))
        placeHolder := builder.placeHolder + 1
        Args := builder.Args ++ [v] }
    else builder
  | none => builder

/-- BuildQuery returns the accumulated text and arguments. -/
def QueryBuilder.BuildQuery (builder : QueryBuilder) : String × List String :=
  (builder.Query, builder.Args)

/-- Subscription of subscription.go. `uuid.UUID` (16 bytes) is identified with
the number it encodes and `time.Time` with an instant on an integer time line;
no operation of the repository computes with either. -/
structure Subscription where
  ID : Int
  ServiceName : String
  Price : Int
  UserID : Nat
  StartDate : Int
  EndDate : Option Int
deriving DecidableEq, Repr

end models

/-! ## internal/cache/redis.go -/

namespace cache

open models

/-- The errors a cache call returns: `redis.Nil` for a key that is not there,
or any other failure of the command or of the JSON coding around it. -/
inductive Error where
  | redisNil
  | failed
deriving DecidableEq, Repr

/-- RedisClient: the key space of the Redis server. The key of a subscription
is `strconv.Itoa(sub.ID)`, which is one-to-one on identifiers, so entries are
indexed by identifier; the value is the JSON of the subscription, which
`json.Unmarshal` decodes back to the same fields, so entries hold the
subscription itself. The one-hour expiry is not part of this model. -/
structure RedisClient where
  entries : Int → Option Subscription

/-- SetSubscription: marshal and `SET key json EX 1h`. `ok` is the outcome the
environment gives the call; a failed call leaves the key space as it was. -/
def RedisClient.SetSubscription (r : RedisClient) (sub : Subscription) (ok : Bool) :
    RedisClient × Option Error :=
  if ok then
    ({ entries := fun k => if k = sub.ID then some sub else r.entries k }, none)
  else (r, some Error.failed)

/-- GetSubscription: `GET key` and unmarshal. A missing key is the error
`redis.Nil`; `ok = false` is any other failure. -/
def RedisClient.GetSubscription (r : RedisClient) (id : Int) (ok : Bool) :
    Except Error Subscription :=
  if ok then
    match r.entries id with
    | some sub => Except.ok sub
    | none => Except.error Error.redisNil
  else Except.error Error.failed

/-- DeleteSubscription: `DEL key`. A failed call leaves the key space as it
was. -/
def RedisClient.DeleteSubscription (r : RedisClient) (id : Int) (ok : Bool) :
    RedisClient × Option Error :=
  if ok then
    ({ entries := fun k => if k = id then none else r.entries k }, none)
  else (r, some Error.failed)

end cache

/-! ## internal/repository/repository.go -/

namespace repository

open models

/-- The errors the repository returns, one per message of repository.go:
"failed to create subscription", "subscription not found", "failed to get
subscription", "failed to delete subscription", "failed to get rows
affected", "failed to update subscription", "failed to query subscriptions",
"failed to scan subscription", "row iteration error", "failed to sum
subscriptions". -/
inductive Error where
  | createFailed
  | notFound
  | getFailed
  | deleteFailed
  | rowsAffectedFailed
  | updateFailed
  | queryFailed
  | scanFailed
  | rowIterationFailed
  | sumFailed
deriving DecidableEq, Repr

/-- The statement text of InsertSubscription. -/
def insertQuery : String :=
  "\n\t\tINSERT INTO subscriptions (service_name, price, user_id, start_date, end_date)\n\t\tVALUES ($1, $2, $3, $4, $5)\n\t\tRETURNING id"

/-- The statement text of GetSubscriptionByID. -/
def selectQuery : String :=
  "\n\t\tSELECT id, service_name, price, user_id, start_date, end_date\n\t\tFROM subscriptions\n\t\tWHERE id = $1"

/-- The statement text of DeleteSubscription. -/
def deleteQuery : String := "DELETE FROM subscriptions WHERE id = $1"

/-- The statement text of UpdateSubscription. -/
def updateQuery : String :=
  "\n\t\tUPDATE subscriptions\n\t\tSET service_name = $2, price = $3, start_date = $4, end_date = $5, user_id = $6\n\t\tWHERE id = $1\n\t\tRETURNING id"

/-- The statement text of GetAllSubscription. -/
def selectAllQuery : String :=
  "SELECT id, service_name, price, user_id, start_date, end_date FROM subscriptions"

/-- A call the repository makes on one of its two collaborators. -/
inductive Call where
  | db (query : String)
  | cacheGet (id : Int)
  | cacheSet (id : Int)
  | cacheDel (id : Int)
deriving DecidableEq, Repr

/-- `SELECT ... WHERE id = $1` on the subscriptions table: the row with this
identifier, if there is one. -/
def selectByID (rows : List Subscription) (id : Int) : Option Subscription :=
  rows.find? (fun s => s.ID == id)

/-- `INSERT ... RETURNING id` on the subscriptions table, the store having
assigned `id`. -/
def insertRow (rows : List Subscription) (id : Int) (sub : Subscription) :
    List Subscription :=
  rows ++ [{ sub with ID := id }]

/-- `DELETE ... WHERE id = $1`: the remaining rows. -/
def deleteByID (rows : List Subscription) (id : Int) : List Subscription :=
  rows.filter (fun s => s.ID != id)

/-- The number of rows `DELETE ... WHERE id = $1` affects. -/
def rowsAffected (rows : List Subscription) (id : Int) : Nat :=
  rows.countP (fun s => s.ID == id)

/-- `UPDATE ... SET service_name = $2, price = $3, start_date = $4,
end_date = $5, user_id = $6 WHERE id = $1`: the rows afterwards. -/
def updateByID (rows : List Subscription) (sub : Subscription) : List Subscription :=
  rows.map (fun s =>
    if s.ID == sub.ID then
      { s with
        ServiceName := sub.ServiceName
        Price := sub.Price
        StartDate := sub.StartDate
        EndDate := sub.EndDate
        UserID := sub.UserID }
    else s)

/-- The identifiers `UPDATE ... RETURNING id` returns: one per updated row. -/
def updateReturning (rows : List Subscription) (sub : Subscription) : List Int :=
  (rows.filter (fun s => s.ID == sub.ID)).map (fun s => s.ID)

/-- SubscriptionRepository: `db` is the content of the subscriptions table
behind the `*sql.DB`, `cache` the Redis client, absent when `r.cache == nil`.
The logger has no effect on results and is left out. -/
structure SubscriptionRepository where
  db : List Subscription
  cache : Option cache.RedisClient

/-- What a repository method leaves behind: its return value, the repository
afterwards, and the calls it made on the store and the cache, in order. -/
structure Result (α : Type) where
  value : α
  repo : SubscriptionRepository
  calls : List Call

/-- InsertSubscription. `dbOut` is what `QueryRow(...).Scan(&id)` gives: `none`
when it fails, `some id` when the store has stored the row under the
identifier `id` it assigned. `setOk` is the outcome of the cache write, whose
error is logged and dropped. -/
def SubscriptionRepository.InsertSubscription (r : SubscriptionRepository)
    (sub : Subscription) (dbOut : Option Int) (setOk : Bool) : Result (Except Error Int) :=
  match dbOut with
  | none => ⟨Except.error Error.createFailed, r, [Call.db insertQuery]⟩
  | some id =>
    match r.cache with
    | some c =>
      ⟨Except.ok id,
        { db := insertRow r.db id sub
          cache := some (c.SetSubscription { sub with ID := id } setOk).1 },
        [Call.db insertQuery, Call.cacheSet id]⟩
    | none =>
      ⟨Except.ok id, { db := insertRow r.db id sub, cache := none }, [Call.db insertQuery]⟩

/-- GetSubscriptionByID. `getOk`, `setOk` are the outcomes of the cache read
and write; `dbOk = false` is a failure of `QueryRow(...).Scan` other than
`sql.ErrNoRows`. A cache error (a missing key included) falls through to the
store. -/
def SubscriptionRepository.GetSubscriptionByID (r : SubscriptionRepository) (id : Int)
    (getOk dbOk setOk : Bool) : Result (Except Error Subscription) :=
  match r.cache.map (fun c => c.GetSubscription id getOk) with
  | some (Except.ok sub) => ⟨Except.ok sub, r, [Call.cacheGet id]⟩
  | _ =>
    let looked : List Call :=
      match r.cache with
      | some _ => [Call.cacheGet id]
      | none => []
    if dbOk then
      match selectByID r.db id with
      | none => ⟨Except.error Error.notFound, r, looked ++ [Call.db selectQuery]⟩
      | some sub =>
        match r.cache with
        | some c =>
          ⟨Except.ok sub, { r with cache := some (c.SetSubscription sub setOk).1 },
            looked ++ [Call.db selectQuery, Call.cacheSet sub.ID]⟩
        | none => ⟨Except.ok sub, r, looked ++ [Call.db selectQuery]⟩
    else ⟨Except.error Error.getFailed, r, looked ++ [Call.db selectQuery]⟩

/-- DeleteSubscription. `execOk` is the outcome of `db.Exec`, `rowsOk` that of
`result.RowsAffected()` (by then the statement has run), `delOk` that of the
cache delete, whose error is logged and dropped. -/
def SubscriptionRepository.DeleteSubscription (r : SubscriptionRepository) (id : Int)
    (execOk rowsOk delOk : Bool) : Result (Option Error) :=
  if execOk then
    if rowsOk then
      if rowsAffected r.db id = 0 then
        ⟨some Error.notFound, { r with db := deleteByID r.db id }, [Call.db deleteQuery]⟩
      else
        match r.cache with
        | some c =>
          ⟨none,
            { db := deleteByID r.db id, cache := some (c.DeleteSubscription id delOk).1 },
            [Call.db deleteQuery, Call.cacheDel id]⟩
        | none => ⟨none, { db := deleteByID r.db id, cache := none }, [Call.db deleteQuery]⟩
    else
      ⟨some Error.rowsAffectedFailed, { r with db := deleteByID r.db id },
        [Call.db deleteQuery]⟩
  else ⟨some Error.deleteFailed, r, [Call.db deleteQuery]⟩

/-- UpdateSubscription. `delOk`, `setOk` are the outcomes of the cache delete
before the store update and of the cache write after it; `dbOk = false` is a
failure of the statement itself, and an update that returns no row makes
`Scan` fail with `sql.ErrNoRows`: both are "failed to update subscription". -/
def SubscriptionRepository.UpdateSubscription (r : SubscriptionRepository)
    (subscription : Subscription) (delOk dbOk setOk : Bool) : Result (Option Error) :=
  let cache1 : Option cache.RedisClient :=
    r.cache.map (fun c => (c.DeleteSubscription subscription.ID delOk).1)
  let invalidated : List Call :=
    match r.cache with
    | some _ => [Call.cacheDel subscription.ID]
    | none => []
  if dbOk then
    match updateReturning r.db subscription with
    | [] =>
      ⟨some Error.updateFailed, { db := updateByID r.db subscription, cache := cache1 },
        invalidated ++ [Call.db updateQuery]⟩
    | _ :: _ =>
      match cache1 with
      | some c =>
        ⟨none,
          { db := updateByID r.db subscription
            cache := some (c.SetSubscription subscription setOk).1 },
          invalidated ++ [Call.db updateQuery, Call.cacheSet subscription.ID]⟩
      | none =>
        ⟨none, { db := updateByID r.db subscription, cache := none },
          invalidated ++ [Call.db updateQuery]⟩
  else ⟨some Error.updateFailed, { db := r.db, cache := cache1 },
    invalidated ++ [Call.db updateQuery]⟩

/-- How the store call of GetAllSubscription ends: `db.Query` fails, a
`rows.Scan` fails, `rows.Err()` reports an error, or every row is read. -/
inductive ListOutcome where
  | queryFailed
  | scanFailed
  | rowsFailed
  | done
deriving DecidableEq, Repr

/-- GetAllSubscription reads the table; the cache is not used. -/
def SubscriptionRepository.GetAllSubscription (r : SubscriptionRepository)
    (dbOut : ListOutcome) : Result (Except Error (List Subscription)) :=
  match dbOut with
  | ListOutcome.queryFailed => ⟨Except.error Error.queryFailed, r, [Call.db selectAllQuery]⟩
  | ListOutcome.scanFailed => ⟨Except.error Error.scanFailed, r, [Call.db selectAllQuery]⟩
  | ListOutcome.rowsFailed =>
    ⟨Except.error Error.rowIterationFailed, r, [Call.db selectAllQuery]⟩
  | ListOutcome.done => ⟨Except.ok r.db, r, [Call.db selectAllQuery]⟩

/-- The builder chain of SumTotalSubscriptions. -/
def sumBuilder (startDate endDate userID serviceName : Option String) : QueryBuilder :=
  (((NewQueryBuilder.WithStartDate startDate).WithEndDate endDate).WithUserId
    userID).WithServiceName serviceName

/-- SumTotalSubscriptions builds the query and runs it. `dbOut` is what
`QueryRow(query, args...).Scan(&total)` gives: `none` when it fails,
`some none` for a NULL total, `some (some t)` for the total `t`. -/
def SubscriptionRepository.SumTotalSubscriptions (r : SubscriptionRepository)
    (startDate endDate userID serviceName : Option String) (dbOut : Option (Option Int)) :
    Result (Except Error Int) :=
  let built := (sumBuilder startDate endDate userID serviceName).BuildQuery
  match dbOut with
  | none => ⟨Except.error Error.sumFailed, r, [Call.db built.1]⟩
  | some none => ⟨Except.ok 0, r, [Call.db built.1]⟩
  | some (some total) => ⟨Except.ok total, r, [Call.db built.1]⟩

end repository

/-! ## Observations used to state the properties -/

namespace models

/-- The four optional filters of the builder. -/
inductive Filter where
  | startDate
  | endDate
  | userId
  | serviceName
deriving DecidableEq, Repr

/-- The column a filter constrains. -/
def Filter.column : Filter → String
  | Filter.startDate => "start_date"
  | Filter.endDate => "end_date"
  | Filter.userId => "user_id"
  | Filter.serviceName => "service_name"

/-- The comparison a filter makes. -/
def Filter.op : Filter → String
  | Filter.startDate => ">="
  | Filter.endDate => "<="
  | Filter.userId => "="
  | Filter.serviceName => "="

/-- The With operation of a filter. -/
def Filter.apply (f : Filter) (b : QueryBuilder) (v : Option String) : QueryBuilder :=
  match f with
  | Filter.startDate => b.WithStartDate v
  | Filter.endDate => b.WithEndDate v
  | Filter.userId => b.WithUserId v
  | Filter.serviceName => b.WithServiceName v

/-- The clause text ` AND <column> <op> $<n>`. -/
def clauseText (f : Filter) (n : Nat) : String :=
  " AND " ++ f.column ++ " " ++ f.op ++ " $" ++ toString n

/-- A filter value is present when the pointer is non-nil and the string
non-empty. -/
def present (v : Option String) : Bool :=
  match v with
  | some s => s != ""
  | none => false

/-- The filters that are present among the four, in the order
SumTotalSubscriptions applies them, each with its value. -/
def presentFilters (startDate endDate userID serviceName : Option String) :
    List (Filter × String) :=
  [(Filter.startDate, startDate), (Filter.endDate, endDate), (Filter.userId, userID),
    (Filter.serviceName, serviceName)].filterMap
    (fun fv => if present fv.2 then fv.2.map (fun s => (fv.1, s)) else none)

/-- The number written by a run of decimal digits. -/
def digitsValue (ds : List Char) : Nat :=
  ds.foldl (fun acc d => 10 * acc + (d.toNat - 48)) 0

/-- The placeholder indices of a text, left to right: each `$` that is
followed by digits contributes the number these digits write. -/
def placeholdersOf : List Char → List Nat
  | [] => []
  | c :: cs =>
    if c = '$' ∧ cs.takeWhile Char.isDigit ≠ [] then
      digitsValue (cs.takeWhile Char.isDigit) :: placeholdersOf cs
    else placeholdersOf cs

/-- The placeholder indices of a query text. -/
def placeholders (q : String) : List Nat := placeholdersOf q.toList

/-- A sequence of With operations applied to a builder, first to last. -/
def applyAll (ops : List (Filter × Option String)) (b : QueryBuilder) : QueryBuilder :=
  ops.foldl (fun acc op => op.1.apply acc op.2) b

/-- The number of clauses a sequence of With operations appends: one for each
operation whose value is present. -/
def clauseCount (ops : List (Filter × Option String)) : Nat :=
  (ops.filter (fun op => present op.2)).length

/-- The value standing for a filter in a presence pattern: some fixed
non-empty string when the filter is present, nil when it is not. -/
def patternValue (p : Bool) : Option String :=
  if p then some "x" else none

/-- The words of a text, split at white space; `cur` is the word being read,
last character first. -/
def wordsOf : List Char → List Char → List String
  | [], cur => if cur = [] then [] else [String.mk cur.reverse]
  | c :: cs, cur =>
    if c.isWhitespace then
      if cur = [] then wordsOf cs [] else String.mk cur.reverse :: wordsOf cs []
    else wordsOf cs (c :: cur)

/-- The word that follows the first occurrence of the keyword `kw`. -/
def wordAfter (kw : String) : List String → Option String
  | a :: b :: rest => if a = kw then some b else wordAfter kw (b :: rest)
  | _ => none

/-- The table a statement names after the keyword `kw` (FROM, INTO or
UPDATE). -/
def tableAfter (kw : String) (q : String) : Option String :=
  wordAfter kw (wordsOf q.toList [])

/-- The index a placeholder word `$<digits>` names. -/
def placeholderIndex (w : String) : Option Nat :=
  match w.toList with
  | '$' :: ds =>
    if ds ≠ [] ∧ ds.all Char.isDigit = true then some (digitsValue ds) else none
  | _ => none

/-- The argument a placeholder index names: indices start at 1. -/
def argAt (args : List String) (i : Nat) : Option String :=
  if i = 0 then none else args[i - 1]?

/-- The condition of the clause that starts at the word `w`, the words `ws`
following it: for `AND <column> <op> $<n>` it is the column, the operator and
the argument at position n. -/
def clauseAt (args : List String) (w : String) (ws : List String) :
    Option (String × String × String) :=
  if w = "AND" then
    match ws with
    | col :: op :: ph :: _ =>
      ((placeholderIndex ph).bind (argAt args)).map (fun v => (col, op, v))
    | _ => none
  else none

/-- The conditions of the clauses found in a list of words, left to right. -/
def conditionsOfWords (args : List String) : List String → List (String × String × String)
  | [] => []
  | w :: ws => (clauseAt args w ws).toList ++ conditionsOfWords args ws

/-- The conditions (column, operator, value) a builder holds: those of the
clauses of its query text, the value of a clause being the argument at the
position its placeholder names. -/
def conditions (b : QueryBuilder) : List (String × String × String) :=
  conditionsOfWords b.Args (wordsOf b.Query.toList [])

/-- The operations of a sequence whose value is present, each with its
value. -/
def presentOps (ops : List (Filter × Option String)) : List (Filter × String) :=
  ops.filterMap (fun op => if present op.2 then op.2.map (fun s => (op.1, s)) else none)

/-- The words of the clause ` AND <column> <op> $<n>`. -/
def clauseWords (f : Filter) (n : Nat) : List String :=
  ["AND", f.column, f.op, "$" ++ toString n]

/-- The words of the clauses of a list of filters, numbered from `k + 1`. -/
def clauseWordsFrom : Nat → List (Filter × String) → List String
  | _, [] => []
  | k, p :: ps => clauseWords p.1 (k + 1) ++ clauseWordsFrom (k + 1) ps

end models

namespace repository

open models

/-- The cache entry for an identifier; none when no cache is configured. -/
def SubscriptionRepository.cached (r : SubscriptionRepository) (id : Int) :
    Option Subscription :=
  match r.cache with
  | some c => c.entries id
  | none => none

/-- Cache/store consistency: every cache entry is the store row with the same
identifier (so no entry exists for an identifier that has no row). -/
def SubscriptionRepository.Consistent (r : SubscriptionRepository) : Prop :=
  ∀ id sub, r.cached id = some sub → selectByID r.db id = some sub

/-- The outcome of the cache lookup that opens GetSubscriptionByID: the
entry, when a cache is configured, the call succeeds and the key is there. -/
def SubscriptionRepository.cacheHit (r : SubscriptionRepository) (id : Int) (getOk : Bool) :
    Option Subscription :=
  match r.cache with
  | some c =>
    match c.GetSubscription id getOk with
    | Except.ok sub => some sub
    | Except.error _ => none
  | none => none

/-- The query text the chain of SumTotalSubscriptions builds for a presence
pattern of the four filters. -/
def patternQuery (ps pe pu pn : Bool) : String :=
  (sumBuilder (patternValue ps) (patternValue pe) (patternValue pu)
    (patternValue pn)).BuildQuery.1

/-- The query texts of the 16 presence patterns. -/
def patternQueries : List String :=
  [false, true].flatMap (fun ps => [false, true].flatMap (fun pe => [false, true].flatMap
    (fun pu => [false, true].map (fun pn => patternQuery ps pe pu pn))))

/-- The store is among the collaborators called. -/
def queriesStore (calls : List Call) : Bool :=
  calls.any (fun c => match c with
    | Call.db _ => true
    | _ => false)

/-- A stored subscription: identifier 1, Netflix at 999, no end date. -/
def netflix : Subscription :=
  { ID := 1, ServiceName := "Netflix", Price := 999, UserID := 7, StartDate := 0,
    EndDate := none }

/-- The same subscription with the price raised to 1299. -/
def netflixRaised : Subscription := { netflix with Price := 1299 }

/-- A cache that holds `netflix` under its identifier and nothing else. -/
def netflixCache : cache.RedisClient :=
  { entries := fun k => if k = 1 then some netflix else none }

/-- A repository whose store holds `netflix` and whose cache holds the same
entry. -/
def cachedRepo : SubscriptionRepository := { db := [netflix], cache := some netflixCache }

/-- A repository whose store is empty while its cache still holds
`netflix`. -/
def staleRepo : SubscriptionRepository := { db := [], cache := some netflixCache }

end repository

end TestTask


/-! ## Properties of the filter-query builder -/

namespace TestTask

open models repository

theorem filter_value_cases (v : Option String) :
    v = none ∨ v = some "" ∨ ∃ x, v = some x ∧ x ≠ "" := by
  cases v with
  | none => exact Or.inl rfl
  | some x =>
    by_cases h : x = ""
    · exact Or.inr (Or.inl (by rw [h]))
    · exact Or.inr (Or.inr ⟨x, rfl, h⟩)

theorem present_false_cases {v : Option String} (h : present v = false) :
    v = none ∨ v = some "" := by
  cases v with
  | none => exact Or.inl rfl
  | some x => right; simpa [present] using h

theorem apply_absent (f : Filter) (b : QueryBuilder) {v : Option String}
    (h : present v = false) : f.apply b v = b := by
  rcases present_false_cases h with rfl | rfl <;> cases f <;>
    simp [Filter.apply, QueryBuilder.WithStartDate, QueryBuilder.WithEndDate,
      QueryBuilder.WithUserId, QueryBuilder.WithServiceName]

theorem clauseText_eq (f : Filter) (n : Nat) :
    clauseText f n =
      (match f with
        | Filter.startDate => " AND start_date >= $"
        | Filter.endDate => " AND end_date <= $"
        | Filter.userId => " AND user_id = $"
        | Filter.serviceName => " AND service_name = $") ++ toString n := by
  cases f
  · exact congrArg (· ++ toString n) (by decide : " AND " ++ "start_date" ++ " " ++ ">=" ++ " $" = " AND start_date >= $")
  · exact congrArg (· ++ toString n) (by decide : " AND " ++ "end_date" ++ " " ++ "<=" ++ " $" = " AND end_date <= $")
  · exact congrArg (· ++ toString n) (by decide : " AND " ++ "user_id" ++ " " ++ "=" ++ " $" = " AND user_id = $")
  · exact congrArg (· ++ toString n) (by decide : " AND " ++ "service_name" ++ " " ++ "=" ++ " $" = " AND service_name = $")

theorem apply_present (f : Filter) (b : QueryBuilder) {v : String} (hv : v ≠ "") :
    f.apply b (some v) =
      { Query := b.Query ++ clauseText f (b.placeHolder + 1)
        placeHolder := b.placeHolder + 1
        Args := b.Args ++ [v] } := by
  rw [clauseText_eq]
  cases f <;>
    simp [Filter.apply, QueryBuilder.WithStartDate, QueryBuilder.WithEndDate,
      QueryBuilder.WithUserId, QueryBuilder.WithServiceName, hv]

theorem applyAll_placeHolder (ops : List (Filter × Option String)) (b : QueryBuilder) :
    (applyAll ops b).placeHolder = b.placeHolder + clauseCount ops
      ∧ (applyAll ops b).Args.length = b.Args.length + clauseCount ops := by
  induction ops generalizing b with
  | nil => simp [applyAll, clauseCount]
  | cons op ops ih =>
    obtain ⟨f, v⟩ := op
    have hstep : applyAll ((f, v) :: ops) b = applyAll ops (f.apply b v) := rfl
    rw [hstep]
    cases hp : present v with
    | false =>
      rw [apply_absent f b hp]
      have hc : clauseCount ((f, v) :: ops) = clauseCount ops := by
        simp [clauseCount, hp]
      rw [hc]
      exact ih b
    | true =>
      have hc : clauseCount ((f, v) :: ops) = clauseCount ops + 1 := by
        simp [clauseCount, hp]
      cases v with
      | none => simp [present] at hp
      | some x =>
        have hx : x ≠ "" := by simpa [present] using hp
        rw [apply_present f b hx, hc]
        have h := ih { Query := b.Query ++ clauseText f (b.placeHolder + 1)
                       placeHolder := b.placeHolder + 1
                       Args := b.Args ++ [x] }
        simp only [List.length_append, List.length_singleton] at h
        constructor
        · rw [h.1]; omega
        · rw [h.2]; omega

set_option maxHeartbeats 1000000 in
/-- C1: for each of the 16 presence patterns of the four filters, the query
built by the chain of SumTotalSubscriptions is the base query followed by one
clause per present filter, in the order of the chain, the i-th clause carrying
placeholder i; its placeholders read left to right are 1, 2, ..., k with k the
number of present filters; and the argument list has length k and holds the
values of the present filters in the same order. -/
theorem sum_query_placeholders_contiguous (s e u n : Option String) :
    (sumBuilder s e u n).BuildQuery.1 =
        NewQueryBuilder.Query ++ String.join
          (List.zipWith (fun fv i => clauseText fv.1 i) (presentFilters s e u n)
            (List.range' 1 (presentFilters s e u n).length))
      ∧ placeholders (sumBuilder s e u n).BuildQuery.1
          = List.range' 1 (presentFilters s e u n).length
      ∧ (sumBuilder s e u n).BuildQuery.2.length = (presentFilters s e u n).length
      ∧ (sumBuilder s e u n).BuildQuery.2 = (presentFilters s e u n).map Prod.snd := by
  rcases filter_value_cases s with rfl | rfl | ⟨s, rfl, hs⟩ <;>
  rcases filter_value_cases e with rfl | rfl | ⟨e, rfl, he⟩ <;>
  rcases filter_value_cases u with rfl | rfl | ⟨u, rfl, hu⟩ <;>
  rcases filter_value_cases n with rfl | rfl | ⟨n, rfl, hn⟩
  all_goals
    simp [sumBuilder, QueryBuilder.BuildQuery, presentFilters, present,
      QueryBuilder.WithStartDate, QueryBuilder.WithEndDate,
      QueryBuilder.WithUserId, QueryBuilder.WithServiceName, NewQueryBuilder, List.range',
      List.zipWith, *]
  all_goals decide

/-- C2: on a builder reached from NewQueryBuilder by any sequence of With
operations, each With operation called with a non-empty value appends exactly
one clause ` AND <column> <op> $<n>`, n being the number of clauses already
appended plus one, and appends the value to the arguments; the same operation
applied twice in succession appends two clauses numbered n and n+1 and two
arguments. -/
theorem with_appends_one_clause (ops : List (Filter × Option String)) (f : Filter)
    (v w : String) (hv : v ≠ "") (hw : w ≠ "") :
    ((applyAll ops NewQueryBuilder).WithStartDate (some v)).Query =
        (applyAll ops NewQueryBuilder).Query
          ++ (" AND start_date >= $" ++ toString (clauseCount ops + 1))
      ∧ ((applyAll ops NewQueryBuilder).WithEndDate (some v)).Query =
        (applyAll ops NewQueryBuilder).Query
          ++ (" AND end_date <= $" ++ toString (clauseCount ops + 1))
      ∧ ((applyAll ops NewQueryBuilder).WithUserId (some v)).Query =
        (applyAll ops NewQueryBuilder).Query
          ++ (" AND user_id = $" ++ toString (clauseCount ops + 1))
      ∧ ((applyAll ops NewQueryBuilder).WithServiceName (some v)).Query =
        (applyAll ops NewQueryBuilder).Query
          ++ (" AND service_name = $" ++ toString (clauseCount ops + 1))
      ∧ (f.apply (applyAll ops NewQueryBuilder) (some v)).Query =
        (applyAll ops NewQueryBuilder).Query ++ clauseText f (clauseCount ops + 1)
      ∧ (f.apply (applyAll ops NewQueryBuilder) (some v)).Args =
        (applyAll ops NewQueryBuilder).Args ++ [v]
      ∧ (f.apply (applyAll ops NewQueryBuilder) (some v)).Args.length = clauseCount ops + 1
      ∧ (f.apply (f.apply (applyAll ops NewQueryBuilder) (some v)) (some w)).Query =
        (applyAll ops NewQueryBuilder).Query ++ clauseText f (clauseCount ops + 1)
          ++ clauseText f (clauseCount ops + 2)
      ∧ (f.apply (f.apply (applyAll ops NewQueryBuilder) (some v)) (some w)).Args =
        (applyAll ops NewQueryBuilder).Args ++ [v, w] := by
  have hp := (applyAll_placeHolder ops NewQueryBuilder).1
  have hl := (applyAll_placeHolder ops NewQueryBuilder).2
  have hp0 : NewQueryBuilder.placeHolder = 0 := rfl
  have hl0 : NewQueryBuilder.Args.length = 0 := rfl
  rw [hp0, Nat.zero_add] at hp
  rw [hl0, Nat.zero_add] at hl
  refine ⟨?_, ?_, ?_, ?_, ?_, ?_, ?_, ?_, ?_⟩
  · simp [QueryBuilder.WithStartDate, hv, hp]
  · simp [QueryBuilder.WithEndDate, hv, hp]
  · simp [QueryBuilder.WithUserId, hv, hp]
  · simp [QueryBuilder.WithServiceName, hv, hp]
  · rw [apply_present f _ hv, hp]
  · rw [apply_present f _ hv]
  · rw [apply_present f _ hv]; simp [hl]
  · rw [apply_present f _ hv, apply_present f _ hw, hp]
  · rw [apply_present f _ hv, apply_present f _ hw]; simp

/-- Witness of C2: WithUserId on a builder that already holds a user_id clause
and a start_date clause. -/
theorem with_appends_one_clause_witness :
    (Filter.userId.apply
        (applyAll [(Filter.userId, some "u1"), (Filter.startDate, some "2024-01-01")]
          NewQueryBuilder) (some "u2")).Query =
      (applyAll [(Filter.userId, some "u1"), (Filter.startDate, some "2024-01-01")]
          NewQueryBuilder).Query ++ clauseText Filter.userId 3 :=
  (with_appends_one_clause
    [(Filter.userId, some "u1"), (Filter.startDate, some "2024-01-01")] Filter.userId
    "u2" "u3" (by decide) (by decide)).2.2.2.2.1

/-- C3: a With operation called with an absent or empty value returns the
builder it was given, so query text, arguments and placeholder counter are
unchanged; and the chain of SumTotalSubscriptions with all four values absent
or empty builds the base query, which ends in `WHERE 1=1`, with no
argument. -/
theorem absent_filter_changes_nothing (b : QueryBuilder) (v s e u n : Option String)
    (hv : v = none ∨ v = some "") (hs : s = none ∨ s = some "")
    (he : e = none ∨ e = some "") (hu : u = none ∨ u = some "")
    (hn : n = none ∨ n = some "") :
    b.WithStartDate v = b ∧ b.WithEndDate v = b ∧ b.WithUserId v = b
      ∧ b.WithServiceName v = b
      ∧ (sumBuilder s e u n).BuildQuery =
          ("SELECT COALESCE(SUM(price), 0) FROM subsciptions WHERE 1=1", [])
      ∧ (sumBuilder s e u n).BuildQuery.1 = NewQueryBuilder.Query
      ∧ ∃ front : String, (sumBuilder s e u n).BuildQuery.1 = front ++ "WHERE 1=1" := by
  have hbase : ∀ s e u n : Option String, (s = none ∨ s = some "") →
      (e = none ∨ e = some "") → (u = none ∨ u = some "") → (n = none ∨ n = some "") →
      sumBuilder s e u n = NewQueryBuilder := by
    intro s e u n hs he hu hn
    rcases hs with rfl | rfl <;> rcases he with rfl | rfl <;> rcases hu with rfl | rfl <;>
      rcases hn with rfl | rfl <;>
      simp [sumBuilder, QueryBuilder.WithStartDate, QueryBuilder.WithEndDate,
        QueryBuilder.WithUserId, QueryBuilder.WithServiceName]
  rw [hbase s e u n hs he hu hn]
  refine ⟨?_, ?_, ?_, ?_, rfl, rfl, ⟨"SELECT COALESCE(SUM(price), 0) FROM subsciptions ", by decide⟩⟩
  · rcases hv with rfl | rfl <;> simp [QueryBuilder.WithStartDate]
  · rcases hv with rfl | rfl <;> simp [QueryBuilder.WithEndDate]
  · rcases hv with rfl | rfl <;> simp [QueryBuilder.WithUserId]
  · rcases hv with rfl | rfl <;> simp [QueryBuilder.WithServiceName]

/-- Witness of C3: an empty start date on a builder that holds one clause, and
the chain with two absent and two empty values. -/
theorem absent_filter_changes_nothing_witness :
    (NewQueryBuilder.WithUserId (some "u1")).WithStartDate (some "")
        = NewQueryBuilder.WithUserId (some "u1")
      ∧ (sumBuilder none (some "") none (some "")).BuildQuery =
          ("SELECT COALESCE(SUM(price), 0) FROM subsciptions WHERE 1=1", []) :=
  ⟨(absent_filter_changes_nothing (NewQueryBuilder.WithUserId (some "u1")) (some "")
      none (some "") none (some "") (Or.inr rfl) (Or.inl rfl) (Or.inr rfl) (Or.inl rfl)
      (Or.inr rfl)).1,
    (absent_filter_changes_nothing NewQueryBuilder none
      none (some "") none (some "") (Or.inl rfl) (Or.inl rfl) (Or.inr rfl) (Or.inl rfl)
      (Or.inr rfl)).2.2.2.2.1⟩

/-- C4, the code at SumTotalSubscriptions(nil, nil, nil, nil): the statement
sent to the store names the table `subsciptions` after FROM, while the
statements of InsertSubscription, GetSubscriptionByID, UpdateSubscription,
DeleteSubscription and GetAllSubscription all name `subscriptions`. -/
theorem sum_query_names_other_table :
    ((SubscriptionRepository.mk [] none).SumTotalSubscriptions none none none none
        (some none)).calls = [Call.db NewQueryBuilder.Query]
      ∧ tableAfter "FROM" NewQueryBuilder.Query = some "subsciptions"
      ∧ tableAfter "FROM" NewQueryBuilder.Query ≠ some "subscriptions"
      ∧ tableAfter "INTO" insertQuery = some "subscriptions"
      ∧ tableAfter "FROM" selectQuery = some "subscriptions"
      ∧ tableAfter "UPDATE" updateQuery = some "subscriptions"
      ∧ tableAfter "FROM" deleteQuery = some "subscriptions"
      ∧ tableAfter "FROM" selectAllQuery = some "subscriptions" := by
  refine ⟨rfl, ?_, ?_, ?_, ?_, ?_, ?_, ?_⟩ <;> decide

set_option maxHeartbeats 1000000 in
theorem sumBuilder_eq_pattern (s e u n : Option String) :
    (sumBuilder s e u n).BuildQuery.1
        = patternQuery (present s) (present e) (present u) (present n)
      ∧ (sumBuilder s e u n).BuildQuery.2 = (presentFilters s e u n).map Prod.snd := by
  rcases filter_value_cases s with rfl | rfl | ⟨s, rfl, hs⟩ <;>
  rcases filter_value_cases e with rfl | rfl | ⟨e, rfl, he⟩ <;>
  rcases filter_value_cases u with rfl | rfl | ⟨u, rfl, hu⟩ <;>
  rcases filter_value_cases n with rfl | rfl | ⟨n, rfl, hn⟩
  all_goals
    simp [sumBuilder, QueryBuilder.BuildQuery, presentFilters, present, patternQuery,
      patternValue, QueryBuilder.WithStartDate, QueryBuilder.WithEndDate,
      QueryBuilder.WithUserId, QueryBuilder.WithServiceName, NewQueryBuilder, *]

theorem patternQuery_mem (ps pe pu pn : Bool) : patternQuery ps pe pu pn ∈ patternQueries := by
  cases ps <;> cases pe <;> cases pu <;> cases pn <;> simp [patternQueries]

/-- C13: two runs of the builder chain of SumTotalSubscriptions whose four
filters have the same presence pattern build the same query text, whatever
the values; the text is the one fixed for the pattern, one of 16 texts; and
the values are returned in the argument list, which holds the present values
in chain order. -/
theorem query_text_independent_of_values (s e u n s2 e2 u2 n2 : Option String)
    (hs : present s = present s2) (he : present e = present e2)
    (hu : present u = present u2) (hn : present n = present n2) :
    (sumBuilder s e u n).BuildQuery.1 = (sumBuilder s2 e2 u2 n2).BuildQuery.1
      ∧ (sumBuilder s e u n).BuildQuery.1
          = patternQuery (present s) (present e) (present u) (present n)
      ∧ (sumBuilder s e u n).BuildQuery.1 ∈ patternQueries
      ∧ patternQueries.length = 16
      ∧ (sumBuilder s e u n).BuildQuery.2 = (presentFilters s e u n).map Prod.snd
      ∧ (sumBuilder s2 e2 u2 n2).BuildQuery.2 = (presentFilters s2 e2 u2 n2).map Prod.snd := by
  refine ⟨?_, (sumBuilder_eq_pattern s e u n).1, ?_, rfl, (sumBuilder_eq_pattern s e u n).2,
    (sumBuilder_eq_pattern s2 e2 u2 n2).2⟩
  · rw [(sumBuilder_eq_pattern s e u n).1, (sumBuilder_eq_pattern s2 e2 u2 n2).1, hs, he, hu,
      hn]
  · rw [(sumBuilder_eq_pattern s e u n).1]
    exact patternQuery_mem _ _ _ _

/-- Witness of C13: two users and two services, start date absent in both
runs and end date empty in one and absent in the other. -/
theorem query_text_independent_of_values_witness :
    (sumBuilder none (some "") (some "alice") (some "Netflix")).BuildQuery.1
        = (sumBuilder none none (some "bob") (some "Spotify")).BuildQuery.1
      ∧ (sumBuilder none (some "") (some "alice") (some "Netflix")).BuildQuery.2
        = ["alice", "Netflix"] :=
  ⟨(query_text_independent_of_values none (some "") (some "alice") (some "Netflix")
      none none (some "bob") (some "Spotify") (by decide) (by decide) (by decide)
      (by decide)).1,
    (query_text_independent_of_values none (some "") (some "alice") (some "Netflix")
      none none (some "bob") (some "Spotify") (by decide) (by decide) (by decide)
      (by decide)).2.2.2.2.1⟩

theorem digitChar_props (d : Nat) (h : d < 10) :
    (Nat.digitChar d).isDigit = true ∧ (Nat.digitChar d).toNat - 48 = d := by
  interval_cases d <;> exact ⟨by decide, by decide⟩

theorem foldl_toDigitsCore (fuel : Nat) : ∀ (n : Nat) (ds : List Char), n < fuel →
    (Nat.toDigitsCore 10 fuel n ds).foldl (fun acc d => 10 * acc + (d.toNat - 48)) 0
      = ds.foldl (fun acc d => 10 * acc + (d.toNat - 48)) n := by
  induction fuel with
  | zero => intro n ds h; omega
  | succ fuel ih =>
    intro n ds h
    have hd := (digitChar_props (n % 10) (Nat.mod_lt _ (by decide))).2
    by_cases h0 : n / 10 = 0
    · have hn : n % 10 = n := Nat.mod_eq_of_lt (by omega)
      simp only [Nat.toDigitsCore, h0, if_true, List.foldl_cons, Nat.mul_zero, Nat.zero_add]
      rw [hd, hn]
    · simp only [Nat.toDigitsCore, h0, if_false]
      rw [ih (n / 10) _ (by omega)]
      simp only [List.foldl_cons, hd]
      congr 1
      omega

theorem digitsValue_toDigits (n : Nat) : digitsValue (Nat.toDigits 10 n) = n := by
  have := foldl_toDigitsCore (n + 1) n [] (Nat.lt_succ_self n)
  simpa [digitsValue, Nat.toDigits] using this

theorem isDigit_toDigitsCore (fuel : Nat) : ∀ (n : Nat) (ds : List Char),
    (∀ c ∈ ds, c.isDigit = true) → ∀ c ∈ Nat.toDigitsCore 10 fuel n ds, c.isDigit = true := by
  induction fuel with
  | zero => intro n ds h; simpa [Nat.toDigitsCore] using h
  | succ fuel ih =>
    intro n ds h
    have hd := (digitChar_props (n % 10) (Nat.mod_lt _ (by decide))).1
    have hds : ∀ c ∈ Nat.digitChar (n % 10) :: ds, c.isDigit = true := by
      intro c hc
      rcases List.mem_cons.1 hc with rfl | hc
      · exact hd
      · exact h c hc
    by_cases h0 : n / 10 = 0
    · simpa only [Nat.toDigitsCore, h0, if_true] using hds
    · simp only [Nat.toDigitsCore, h0, if_false]
      exact ih _ _ hds

theorem toDigitsCore_ne_nil (fuel : Nat) : ∀ (n : Nat) (ds : List Char),
    ds ≠ [] → Nat.toDigitsCore 10 fuel n ds ≠ [] := by
  induction fuel with
  | zero => intro n ds h; simpa [Nat.toDigitsCore] using h
  | succ fuel ih =>
    intro n ds _
    by_cases h0 : n / 10 = 0
    · simp [Nat.toDigitsCore, h0]
    · simp only [Nat.toDigitsCore, h0, if_false]
      exact ih _ _ (List.cons_ne_nil _ _)

theorem toDigits_ne_nil (n : Nat) : Nat.toDigits 10 n ≠ [] := by
  unfold Nat.toDigits
  by_cases h0 : n / 10 = 0
  · simp [Nat.toDigitsCore, h0]
  · simp only [Nat.toDigitsCore, h0, if_false]
    exact toDigitsCore_ne_nil _ _ _ (List.cons_ne_nil _ _)

theorem placeholderIndex_toString (k : Nat) : placeholderIndex ("$" ++ toString k) = some k := by
  have hl : ("$" ++ toString k).toList = '$' :: Nat.toDigits 10 k := rfl
  have hall : (Nat.toDigits 10 k).all Char.isDigit = true := by
    rw [List.all_eq_true]
    exact isDigit_toDigitsCore _ _ _ (by simp)
  simp only [placeholderIndex, hl]
  rw [if_pos ⟨toDigits_ne_nil k, hall⟩, digitsValue_toDigits]

theorem isWhitespace_of_isDigit {c : Char} (h : c.isDigit = true) : c.isWhitespace = false := by
  cases hw : c.isWhitespace with
  | false => rfl
  | true =>
    simp only [Char.isWhitespace, Bool.or_eq_true, decide_eq_true_eq] at hw
    rcases hw with ((rfl | rfl) | rfl) | rfl <;> exact absurd h (by decide)

theorem wordsOf_append_space (q r : List Char) : ∀ cur : List Char,
    wordsOf (q ++ ' ' :: r) cur = wordsOf q cur ++ wordsOf r [] := by
  induction q with
  | nil =>
    intro cur
    by_cases hc : cur = [] <;> simp [wordsOf, hc]
  | cons c q ih =>
    intro cur
    by_cases hw : c.isWhitespace = true
    · by_cases hc : cur = [] <;> simp [wordsOf, hw, hc, ih]
    · simp [wordsOf, hw, ih]

theorem wordsOf_word (w : List Char) (hw : ∀ c ∈ w, c.isWhitespace = false) :
    ∀ cur : List Char, wordsOf w cur =
      if w.reverse ++ cur = [] then [] else [String.mk (w.reverse ++ cur).reverse] := by
  induction w with
  | nil => intro cur; simp [wordsOf]
  | cons c w ih =>
    intro cur
    have hc : c.isWhitespace = false := hw c (List.mem_cons_self _ _)
    have ih' := ih (fun x hx => hw x (List.mem_cons_of_mem _ hx)) (c :: cur)
    simp [wordsOf, hc, ih']

theorem wordsOf_clause (q : String) (f : Filter) (k : Nat) :
    wordsOf (q ++ clauseText f k).toList [] = wordsOf q.toList [] ++ clauseWords f k := by
  have hdig : wordsOf ('$' :: Nat.toDigits 10 k) [] = ["$" ++ toString k] := by
    rw [wordsOf_word]
    · simp
      rfl
    · intro c hc
      rcases List.mem_cons.1 hc with rfl | hc
      · decide
      · exact isWhitespace_of_isDigit (isDigit_toDigitsCore _ _ _ (by simp) c hc)
  rw [clauseText_eq]
  obtain ⟨qd⟩ := q
  cases f
  · have hl : (String.mk qd ++ (" AND start_date >= $" ++ toString k)).toList
        = qd ++ ' ' :: ("AND start_date >=".toList ++ ' ' :: ('$' :: Nat.toDigits 10 k)) := rfl
    rw [hl, wordsOf_append_space, wordsOf_append_space, hdig]
    rfl
  · have hl : (String.mk qd ++ (" AND end_date <= $" ++ toString k)).toList
        = qd ++ ' ' :: ("AND end_date <=".toList ++ ' ' :: ('$' :: Nat.toDigits 10 k)) := rfl
    rw [hl, wordsOf_append_space, wordsOf_append_space, hdig]
    rfl
  · have hl : (String.mk qd ++ (" AND user_id = $" ++ toString k)).toList
        = qd ++ ' ' :: ("AND user_id =".toList ++ ' ' :: ('$' :: Nat.toDigits 10 k)) := rfl
    rw [hl, wordsOf_append_space, wordsOf_append_space, hdig]
    rfl
  · have hl : (String.mk qd ++ (" AND service_name = $" ++ toString k)).toList
        = qd ++ ' ' :: ("AND service_name =".toList ++ ' ' :: ('$' :: Nat.toDigits 10 k)) := rfl
    rw [hl, wordsOf_append_space, wordsOf_append_space, hdig]
    rfl

theorem presentOps_cons (f : Filter) (v : Option String) (ops : List (Filter × Option String)) :
    presentOps ((f, v) :: ops) =
      (match v with
        | some x => if x ≠ "" then [(f, x)] else []
        | none => []) ++ presentOps ops := by
  rcases filter_value_cases v with rfl | rfl | ⟨x, rfl, hx⟩ <;>
    simp [presentOps, present, List.filterMap_cons, *]

theorem applyAll_words (ops : List (Filter × Option String)) : ∀ b : QueryBuilder,
    wordsOf (applyAll ops b).Query.toList [] =
        wordsOf b.Query.toList [] ++ clauseWordsFrom b.placeHolder (presentOps ops)
      ∧ (applyAll ops b).Args = b.Args ++ (presentOps ops).map Prod.snd := by
  induction ops with
  | nil => intro b; simp [applyAll, presentOps, clauseWordsFrom]
  | cons op ops ih =>
    intro b
    obtain ⟨f, v⟩ := op
    have hstep : applyAll ((f, v) :: ops) b = applyAll ops (f.apply b v) := rfl
    rw [hstep, presentOps_cons]
    rcases filter_value_cases v with rfl | rfl | ⟨x, rfl, hx⟩
    · rw [apply_absent f b (show present (none : Option String) = false from rfl)]
      simpa using ih b
    · rw [apply_absent f b (show present (some "") = false from rfl)]
      simpa using ih b
    · rw [apply_present f b hx]
      have h := ih { Query := b.Query ++ clauseText f (b.placeHolder + 1)
                     placeHolder := b.placeHolder + 1
                     Args := b.Args ++ [x] }
      simp only [wordsOf_clause] at h
      have hm : (match some x with
          | some x => if x ≠ "" then [(f, x)] else []
          | none => []) = [(f, x)] := by simp [hx]
      rw [hm]
      simp only [List.singleton_append, clauseWordsFrom, List.map_cons]
      exact ⟨by rw [h.1, List.append_assoc]; rfl, by rw [h.2, List.append_assoc]; rfl⟩

theorem column_ne_and (f : Filter) : f.column ≠ "AND" ∧ f.op ≠ "AND" := by
  cases f <;> exact ⟨by decide, by decide⟩

theorem placeholder_ne_and (k : Nat) : "$" ++ toString k ≠ "AND" := by
  intro h
  have hl : ("$" ++ toString k).toList = '$' :: Nat.toDigits 10 k := rfl
  rw [h] at hl
  exact absurd hl (by simp)

theorem conditionsOfWords_clauseWords (args : List String) (f : Filter) (k : Nat) (v : String)
    (hv : args[k]? = some v) (rest : List String) :
    conditionsOfWords args (clauseWords f (k + 1) ++ rest) =
      (f.column, f.op, v) :: conditionsOfWords args rest := by
  have h1 := (column_ne_and f).1
  have h2 := (column_ne_and f).2
  have h3 := placeholder_ne_and (k + 1)
  simp [clauseWords, conditionsOfWords, clauseAt, h1, h2, h3, placeholderIndex_toString, argAt,
    hv]

theorem conditionsOfWords_clauseWordsFrom (pv : List (Filter × String)) :
    ∀ (front back : List String) (rest : List String),
      conditionsOfWords (front ++ pv.map Prod.snd ++ back)
          (clauseWordsFrom front.length pv ++ rest) =
        pv.map (fun p => (p.1.column, p.1.op, p.2))
          ++ conditionsOfWords (front ++ pv.map Prod.snd ++ back) rest := by
  induction pv with
  | nil => intro front back rest; simp [clauseWordsFrom]
  | cons p pv ih =>
    intro front back rest
    obtain ⟨f, v⟩ := p
    have hv : (front ++ ((f, v) :: pv).map Prod.snd ++ back)[front.length]? = some v := by
      rw [List.append_assoc, List.getElem?_append_right (Nat.le_refl _)]
      simp
    have h := ih (front ++ [v]) back rest
    simp only [List.length_append, List.length_singleton, List.append_assoc,
      List.singleton_append] at h
    simp only [clauseWordsFrom, List.append_assoc, List.map_cons]
    rw [conditionsOfWords_clauseWords _ f front.length v (by simpa using hv)]
    simp only [List.map_cons, List.cons_append, List.append_assoc] at h ⊢
    rw [h]

theorem conditions_applyAll (ops : List (Filter × Option String)) :
    conditions (applyAll ops NewQueryBuilder) =
      (presentOps ops).map (fun p => (p.1.column, p.1.op, p.2)) := by
  have hw := (applyAll_words ops NewQueryBuilder).1
  have ha := (applyAll_words ops NewQueryBuilder).2
  have hbase : wordsOf NewQueryBuilder.Query.toList [] =
      ["SELECT", "COALESCE(SUM(price),", "0)", "FROM", "subsciptions", "WHERE", "1=1"] := by
    decide
  have h := conditionsOfWords_clauseWordsFrom (presentOps ops) [] [] []
  simp only [List.nil_append, List.append_nil, List.length_nil] at h
  unfold conditions
  rw [hw, ha, hbase]
  simp only [show NewQueryBuilder.Args = [] from rfl, show NewQueryBuilder.placeHolder = 0 from rfl,
    List.nil_append]
  simp only [List.cons_append, List.nil_append, conditionsOfWords, clauseAt]
  simpa [conditionsOfWords] using h

theorem takeWhile_isDigit_append_space (q t : List Char) :
    (q ++ ' ' :: t).takeWhile Char.isDigit = q.takeWhile Char.isDigit := by
  induction q with
  | nil => simp
  | cons c q ih =>
    by_cases hc : c.isDigit = true <;> simp [List.takeWhile_cons, hc, ih]

theorem placeholdersOf_append_space (q t : List Char) :
    placeholdersOf (q ++ ' ' :: t) = placeholdersOf q ++ placeholdersOf t := by
  induction q with
  | nil => simp [placeholdersOf]
  | cons c q ih =>
    have e1 : placeholdersOf (c :: (q ++ ' ' :: t)) =
        if c = '$' ∧ (q ++ ' ' :: t).takeWhile Char.isDigit ≠ [] then
          digitsValue ((q ++ ' ' :: t).takeWhile Char.isDigit) :: placeholdersOf (q ++ ' ' :: t)
        else placeholdersOf (q ++ ' ' :: t) := rfl
    have e2 : placeholdersOf (c :: q) =
        if c = '$' ∧ q.takeWhile Char.isDigit ≠ [] then
          digitsValue (q.takeWhile Char.isDigit) :: placeholdersOf q
        else placeholdersOf q := rfl
    rw [List.cons_append, e1, e2, takeWhile_isDigit_append_space, ih]
    by_cases hcond : c = '$' ∧ q.takeWhile Char.isDigit ≠ []
    · rw [if_pos hcond, if_pos hcond]
      rfl
    · rw [if_neg hcond, if_neg hcond]

theorem placeholdersOf_digits (l : List Char) (h : ∀ c ∈ l, c.isDigit = true) :
    placeholdersOf l = [] := by
  induction l with
  | nil => rfl
  | cons c l ih =>
    have hc : c ≠ '$' := by
      rintro rfl
      exact absurd (h '$' (List.mem_cons_self _ _)) (by decide)
    simp [placeholdersOf, hc, ih (fun x hx => h x (List.mem_cons_of_mem _ hx))]

theorem placeholdersOf_clause (q : String) (f : Filter) (k : Nat) :
    placeholders (q ++ clauseText f k) = placeholders q ++ [k] := by
  have hall : ∀ c ∈ Nat.toDigits 10 k, c.isDigit = true :=
    isDigit_toDigitsCore _ _ _ (by simp)
  have htw : (Nat.toDigits 10 k).takeWhile Char.isDigit = Nat.toDigits 10 k :=
    List.takeWhile_eq_self_iff.2 hall
  have hdig : placeholdersOf ('$' :: Nat.toDigits 10 k) = [k] := by
    simp [placeholdersOf, htw, toDigits_ne_nil, digitsValue_toDigits,
      placeholdersOf_digits _ hall]
  rw [clauseText_eq]
  obtain ⟨qd⟩ := q
  unfold placeholders
  cases f
  · have hl : (String.mk qd ++ (" AND start_date >= $" ++ toString k)).toList
        = qd ++ ' ' :: ("AND start_date >=".toList ++ ' ' :: ('$' :: Nat.toDigits 10 k)) := rfl
    rw [hl, placeholdersOf_append_space, placeholdersOf_append_space, hdig]
    rfl
  · have hl : (String.mk qd ++ (" AND end_date <= $" ++ toString k)).toList
        = qd ++ ' ' :: ("AND end_date <=".toList ++ ' ' :: ('$' :: Nat.toDigits 10 k)) := rfl
    rw [hl, placeholdersOf_append_space, placeholdersOf_append_space, hdig]
    rfl
  · have hl : (String.mk qd ++ (" AND user_id = $" ++ toString k)).toList
        = qd ++ ' ' :: ("AND user_id =".toList ++ ' ' :: ('$' :: Nat.toDigits 10 k)) := rfl
    rw [hl, placeholdersOf_append_space, placeholdersOf_append_space, hdig]
    rfl
  · have hl : (String.mk qd ++ (" AND service_name = $" ++ toString k)).toList
        = qd ++ ' ' :: ("AND service_name =".toList ++ ' ' :: ('$' :: Nat.toDigits 10 k)) := rfl
    rw [hl, placeholdersOf_append_space, placeholdersOf_append_space, hdig]
    rfl

theorem applyAll_append (ops more : List (Filter × Option String)) (b : QueryBuilder) :
    applyAll (ops ++ more) b = applyAll more (applyAll ops b) := by
  simp [applyAll, List.foldl_append]

theorem presentOps_append_two (ops : List (Filter × Option String)) (f g : Filter)
    {v w : String} (hv : v ≠ "") (hw : w ≠ "") :
    presentOps (ops ++ [(f, some v), (g, some w)]) = presentOps ops ++ [(f, v), (g, w)] := by
  simp [presentOps, List.filterMap_append, present, hv, hw]

theorem applyAll_placeholders (ops : List (Filter × Option String)) : ∀ b : QueryBuilder,
    placeholders (applyAll ops b).Query =
        placeholders b.Query ++ List.range' (b.placeHolder + 1) (presentOps ops).length
      ∧ (applyAll ops b).placeHolder = b.placeHolder + (presentOps ops).length := by
  induction ops with
  | nil => intro b; simp [applyAll, presentOps]
  | cons op ops ih =>
    intro b
    obtain ⟨f, v⟩ := op
    have hstep : applyAll ((f, v) :: ops) b = applyAll ops (f.apply b v) := rfl
    rw [hstep, presentOps_cons]
    rcases filter_value_cases v with rfl | rfl | ⟨x, rfl, hx⟩
    · rw [apply_absent f b (show present (none : Option String) = false from rfl)]
      simpa using ih b
    · rw [apply_absent f b (show present (some "") = false from rfl)]
      simpa using ih b
    · rw [apply_present f b hx]
      have h := ih { Query := b.Query ++ clauseText f (b.placeHolder + 1)
                     placeHolder := b.placeHolder + 1
                     Args := b.Args ++ [x] }
      simp only [placeholdersOf_clause] at h
      have hm : (match some x with
          | some x => if x ≠ "" then [(f, x)] else []
          | none => []) = [(f, x)] := by simp [hx]
      rw [hm]
      simp only [List.singleton_append, List.length_cons, List.range'_succ]
      exact ⟨by rw [h.1, List.append_assoc]; rfl, by rw [h.2]; omega⟩

/-- C12: on a builder reached from NewQueryBuilder by any sequence of With
operations, two With operations with non-empty values applied in either order
give the same placeholder counter and the same placeholders in the query text,
argument lists that are permutations of each other, and the same multiset of
conditions (column, operator, value): the conditions already held, followed
by those of the two operations in the order applied. -/
theorem with_order_independent (ops : List (Filter × Option String)) (f g : Filter)
    (v w : String) (hv : v ≠ "") (hw : w ≠ "") :
    (g.apply (f.apply (applyAll ops NewQueryBuilder) (some v)) (some w)).placeHolder
        = (f.apply (g.apply (applyAll ops NewQueryBuilder) (some w)) (some v)).placeHolder
      ∧ placeholders (g.apply (f.apply (applyAll ops NewQueryBuilder) (some v)) (some w)).Query
        = List.range' 1 (clauseCount ops + 2)
      ∧ placeholders (f.apply (g.apply (applyAll ops NewQueryBuilder) (some w)) (some v)).Query
        = List.range' 1 (clauseCount ops + 2)
      ∧ List.Perm (g.apply (f.apply (applyAll ops NewQueryBuilder) (some v)) (some w)).Args
        (f.apply (g.apply (applyAll ops NewQueryBuilder) (some w)) (some v)).Args
      ∧ conditions (g.apply (f.apply (applyAll ops NewQueryBuilder) (some v)) (some w))
        = conditions (applyAll ops NewQueryBuilder)
            ++ [(f.column, f.op, v), (g.column, g.op, w)]
      ∧ conditions (f.apply (g.apply (applyAll ops NewQueryBuilder) (some w)) (some v))
        = conditions (applyAll ops NewQueryBuilder)
            ++ [(g.column, g.op, w), (f.column, f.op, v)]
      ∧ (conditions (applyAll ops NewQueryBuilder)).length = clauseCount ops
      ∧ Multiset.ofList
          (conditions (g.apply (f.apply (applyAll ops NewQueryBuilder) (some v)) (some w)))
        = Multiset.ofList
          (conditions (f.apply (g.apply (applyAll ops NewQueryBuilder) (some w)) (some v))) := by
  have hfg : g.apply (f.apply (applyAll ops NewQueryBuilder) (some v)) (some w)
      = applyAll (ops ++ [(f, some v), (g, some w)]) NewQueryBuilder := by
    rw [applyAll_append]; rfl
  have hgf : f.apply (g.apply (applyAll ops NewQueryBuilder) (some w)) (some v)
      = applyAll (ops ++ [(g, some w), (f, some v)]) NewQueryBuilder := by
    rw [applyAll_append]; rfl
  have hcount : (presentOps ops).length = clauseCount ops := by
    have h1 := (applyAll_placeholders ops NewQueryBuilder).2
    have h2 := (applyAll_placeHolder ops NewQueryBuilder).1
    rw [h1] at h2
    omega
  have hph : ∀ more : List (Filter × Option String),
      placeholders (applyAll more NewQueryBuilder).Query
        = List.range' 1 (presentOps more).length := by
    intro more
    rw [(applyAll_placeholders more NewQueryBuilder).1]
    have h0 : placeholders NewQueryBuilder.Query = [] := by decide
    rw [h0]
    rfl
  have hc1 : conditions (applyAll (ops ++ [(f, some v), (g, some w)]) NewQueryBuilder)
      = conditions (applyAll ops NewQueryBuilder)
          ++ [(f.column, f.op, v), (g.column, g.op, w)] := by
    rw [conditions_applyAll, conditions_applyAll, presentOps_append_two ops f g hv hw]
    simp
  have hc2 : conditions (applyAll (ops ++ [(g, some w), (f, some v)]) NewQueryBuilder)
      = conditions (applyAll ops NewQueryBuilder)
          ++ [(g.column, g.op, w), (f.column, f.op, v)] := by
    rw [conditions_applyAll, conditions_applyAll, presentOps_append_two ops g f hw hv]
    simp
  rw [hfg, hgf]
  refine ⟨?_, ?_, ?_, ?_, hc1, hc2, ?_, ?_⟩
  · rw [(applyAll_placeholders _ NewQueryBuilder).2, (applyAll_placeholders _ NewQueryBuilder).2,
      presentOps_append_two ops f g hv hw, presentOps_append_two ops g f hw hv]
    simp
  · rw [hph, presentOps_append_two ops f g hv hw, ← hcount]
    simp
  · rw [hph, presentOps_append_two ops g f hw hv, ← hcount]
    simp
  · rw [(applyAll_words _ NewQueryBuilder).2, (applyAll_words _ NewQueryBuilder).2,
      presentOps_append_two ops f g hv hw, presentOps_append_two ops g f hw hv]
    simp only [List.map_append, List.map_cons, List.map_nil]
    exact List.Perm.append_left _ (List.Perm.append_left _ (List.Perm.swap w v []))
  · rw [conditions_applyAll, List.length_map, hcount]
  · rw [hc1, hc2]
    exact Quotient.sound (List.Perm.append_left _ (List.Perm.swap _ _ []))

/-- Witness of C12: a user filter and a start-date filter applied in either
order to a builder that already holds a service-name clause. -/
theorem with_order_independent_witness :
    conditions (Filter.startDate.apply (Filter.userId.apply
        (applyAll [(Filter.serviceName, some "Netflix")] NewQueryBuilder) (some "alice"))
        (some "2024-01-01"))
      = [("service_name", "=", "Netflix"), ("user_id", "=", "alice"),
          ("start_date", ">=", "2024-01-01")]
    ∧ conditions (Filter.userId.apply (Filter.startDate.apply
        (applyAll [(Filter.serviceName, some "Netflix")] NewQueryBuilder) (some "2024-01-01"))
        (some "alice"))
      = [("service_name", "=", "Netflix"), ("start_date", ">=", "2024-01-01"),
          ("user_id", "=", "alice")] :=
  ⟨(with_order_independent [(Filter.serviceName, some "Netflix")] Filter.userId
      Filter.startDate "alice" "2024-01-01" (by decide) (by decide)).2.2.2.2.1.trans
      (by decide),
    (with_order_independent [(Filter.serviceName, some "Netflix")] Filter.userId
      Filter.startDate "alice" "2024-01-01" (by decide) (by decide)).2.2.2.2.2.1.trans
      (by decide)⟩

end TestTask

/-! ## Properties of the caching repository -/

namespace TestTask

open models repository

theorem selectByID_id {rows : List Subscription} {id : Int} {s : Subscription}
    (h : selectByID rows id = some s) : s.ID = id := by
  have := List.find?_some h
  simpa using this

theorem selectByID_deleteByID_self (rows : List Subscription) (id : Int) :
    selectByID (deleteByID rows id) id = none := by
  induction rows with
  | nil => rfl
  | cons a rows ih =>
    by_cases h : a.ID = id
    · simp only [selectByID, deleteByID] at ih
      simp [selectByID, deleteByID, List.filter_cons, h, ih]
    · simp only [selectByID, deleteByID] at ih
      simp [selectByID, deleteByID, List.filter_cons, List.find?_cons, h, ih]


theorem selectByID_deleteByID_other (rows : List Subscription) {id k : Int} (hk : k ≠ id) :
    selectByID (deleteByID rows id) k = selectByID rows k := by
  induction rows with
  | nil => rfl
  | cons a rows ih =>
    simp only [selectByID, deleteByID] at ih
    by_cases h : a.ID = id
    · subst h
      have hak : ¬ a.ID = k := fun h' => hk h'.symm
      simp [selectByID, deleteByID, List.filter_cons, List.find?_cons, hak, ih]
    · by_cases hak : a.ID = k
      · subst hak
        simp [selectByID, deleteByID, List.filter_cons, List.find?_cons, h]
      · simp [selectByID, deleteByID, List.filter_cons, List.find?_cons, h, hak, ih]

theorem rowsAffected_eq_zero_iff (rows : List Subscription) (id : Int) :
    rowsAffected rows id = 0 ↔ selectByID rows id = none := by
  simp [rowsAffected, selectByID, List.countP_eq_zero]

theorem deleteByID_of_no_row (rows : List Subscription) (id : Int)
    (h : selectByID rows id = none) : deleteByID rows id = rows := by
  simp only [selectByID, List.find?_eq_none] at h
  simp only [deleteByID, List.filter_eq_self]
  intro a ha
  have := h a ha
  simpa using this

theorem updateReturning_eq_nil_iff (rows : List Subscription) (sub : Subscription) :
    updateReturning rows sub = [] ↔ selectByID rows sub.ID = none := by
  simp [updateReturning, selectByID, List.filter_eq_nil_iff]

theorem updateByID_of_no_row (rows : List Subscription) (sub : Subscription)
    (h : selectByID rows sub.ID = none) : updateByID rows sub = rows := by
  simp only [selectByID, List.find?_eq_none] at h
  induction rows with
  | nil => rfl
  | cons a rows ih =>
    have ha : ¬ a.ID = sub.ID := by simpa using h a (List.mem_cons_self _ _)
    have ht := ih (fun x hx => h x (List.mem_cons_of_mem _ hx))
    simp only [updateByID, List.map_cons] at ht ⊢
    rw [ht]
    simp [ha]

theorem selectByID_updateByID_self (rows : List Subscription) (sub : Subscription)
    (h : selectByID rows sub.ID ≠ none) :
    selectByID (updateByID rows sub) sub.ID = some sub := by
  induction rows with
  | nil => exact absurd rfl h
  | cons a rows ih =>
    by_cases ha : a.ID = sub.ID
    · obtain ⟨i, sn, p, u, sd, ed⟩ := sub
      obtain ⟨i', sn', p', u', sd', ed'⟩ := a
      simp only at ha
      subst ha
      simp [selectByID, updateByID]
    · have h' : selectByID rows sub.ID ≠ none := by
        simpa [selectByID, List.find?_cons, ha] using h
      simpa [selectByID, updateByID, List.find?_cons, ha] using ih h'

theorem selectByID_updateByID_other (rows : List Subscription) (sub : Subscription)
    {k : Int} (hk : k ≠ sub.ID) :
    selectByID (updateByID rows sub) k = selectByID rows k := by
  induction rows with
  | nil => rfl
  | cons a rows ih =>
    simp only [selectByID, updateByID] at ih
    by_cases ha : a.ID = sub.ID
    · have hak : ¬ a.ID = k := fun h' => hk (h' ▸ ha)
      simp only [selectByID, updateByID, List.map_cons, List.find?_cons]
      rw [ih]
      have hsk : (sub.ID == k) = false := by
        simpa using fun h' : sub.ID = k => hk h'.symm
      simp [ha, hsk]
    · by_cases hak : a.ID = k
      · subst hak
        simp [selectByID, updateByID, List.find?_cons, ha]
      · simp only [selectByID, updateByID, List.map_cons, List.find?_cons]
        rw [ih]
        simp [ha, hak]

theorem selectByID_insertRow_fresh (rows : List Subscription) (id : Int) (sub : Subscription)
    (h : selectByID rows id = none) :
    selectByID (insertRow rows id sub) id = some { sub with ID := id } := by
  simp only [selectByID] at h
  simp [selectByID, insertRow, List.find?_append, h]

theorem selectByID_insertRow_of_some (rows : List Subscription) (id : Int)
    (sub : Subscription) {k : Int} {s : Subscription} (h : selectByID rows k = some s) :
    selectByID (insertRow rows id sub) k = some s := by
  simp only [selectByID] at h
  simp [selectByID, insertRow, List.find?_append, h]

theorem insert_consistent (r : SubscriptionRepository) (hr : r.Consistent)
    (sub : Subscription) (dbOut : Option Int) (setOk : Bool)
    (hfresh : ∀ id, dbOut = some id → selectByID r.db id = none) :
    (r.InsertSubscription sub dbOut setOk).repo.Consistent := by
  obtain ⟨db, c⟩ := r
  cases dbOut with
  | none => exact hr
  | some id =>
    have hf : selectByID db id = none := hfresh id rfl
    cases c with
    | none =>
      intro k s hk
      simp [SubscriptionRepository.InsertSubscription, SubscriptionRepository.cached] at hk
    | some c =>
      intro k s hk
      cases setOk with
      | false =>
        have hk' : c.entries k = some s := by
          simpa [SubscriptionRepository.InsertSubscription, SubscriptionRepository.cached,
            cache.RedisClient.SetSubscription] using hk
        exact selectByID_insertRow_of_some db id sub
          (hr k s (by simpa [SubscriptionRepository.cached] using hk'))
      | true =>
        by_cases hki : k = id
        · subst hki
          have hs : { sub with ID := k } = s := by
            simpa [SubscriptionRepository.InsertSubscription, SubscriptionRepository.cached,
              cache.RedisClient.SetSubscription] using hk
          rw [← hs]
          exact selectByID_insertRow_fresh db k sub hf
        · have hk' : c.entries k = some s := by
            simpa [SubscriptionRepository.InsertSubscription, SubscriptionRepository.cached,
              cache.RedisClient.SetSubscription, hki] using hk
          exact selectByID_insertRow_of_some db id sub
            (hr k s (by simpa [SubscriptionRepository.cached] using hk'))

theorem get_consistent (r : SubscriptionRepository) (hr : r.Consistent)
    (id : Int) (getOk dbOk setOk : Bool) :
    (r.GetSubscriptionByID id getOk dbOk setOk).repo.Consistent := by
  obtain ⟨db, c⟩ := r
  cases c with
  | none =>
    intro k s hk
    unfold SubscriptionRepository.GetSubscriptionByID at hk
    cases dbOk <;> cases hrow : selectByID db id <;>
      simp [SubscriptionRepository.cached, hrow] at hk
  | some c =>
    unfold SubscriptionRepository.GetSubscriptionByID
    cases hget : c.GetSubscription id getOk with
    | ok sub => simpa [hget] using hr
    | error err =>
      cases dbOk with
      | false => simpa [hget] using hr
      | true =>
        cases hrow : selectByID db id with
        | none => simpa [hget, hrow] using hr
        | some row =>
          have hid : row.ID = id := selectByID_id hrow
          simp only [Option.map_some', hget, hrow, if_true]
          intro k s hk
          cases setOk with
          | false =>
            exact hr k s (by simpa [SubscriptionRepository.cached,
              cache.RedisClient.SetSubscription] using hk)
          | true =>
            by_cases hki : k = row.ID
            · have hs : row = s := by
                simpa [SubscriptionRepository.cached, cache.RedisClient.SetSubscription,
                  hki] using hk
              rw [← hs, hki, hid]
              exact hrow
            · exact hr k s (by simpa [SubscriptionRepository.cached,
                cache.RedisClient.SetSubscription, hki] using hk)

theorem delete_consistent (r : SubscriptionRepository) (hr : r.Consistent)
    (id : Int) (execOk rowsOk delOk : Bool) (hrows : rowsOk = true) (hdel : delOk = true) :
    (r.DeleteSubscription id execOk rowsOk delOk).repo.Consistent := by
  obtain ⟨db, c⟩ := r
  subst hrows hdel
  cases execOk with
  | false => exact hr
  | true =>
    by_cases hn : rowsAffected db id = 0
    · have hnone := (rowsAffected_eq_zero_iff db id).1 hn
      simp only [SubscriptionRepository.DeleteSubscription, if_true, hn,
        deleteByID_of_no_row db id hnone]
      exact hr
    · cases c with
      | none =>
        intro k s hk
        simp [SubscriptionRepository.DeleteSubscription, hn,
          SubscriptionRepository.cached] at hk
      | some c =>
        intro k s hk
        simp only [SubscriptionRepository.DeleteSubscription, if_true, hn, if_false,
          SubscriptionRepository.cached, cache.RedisClient.DeleteSubscription] at hk ⊢
        by_cases hki : k = id
        · simp [hki] at hk
        · rw [selectByID_deleteByID_other db hki]
          exact hr k s (by simpa [SubscriptionRepository.cached, hki] using hk)

theorem update_consistent (r : SubscriptionRepository) (hr : r.Consistent)
    (e : Subscription) (delOk dbOk setOk : Bool) (h : delOk = true ∨ setOk = true) :
    (r.UpdateSubscription e delOk dbOk setOk).repo.Consistent := by
  obtain ⟨db, c⟩ := r
  cases c with
  | none =>
    intro k s hk
    unfold SubscriptionRepository.UpdateSubscription at hk
    cases dbOk <;> cases hret : updateReturning db e <;>
      simp [SubscriptionRepository.cached, hret] at hk
  | some c =>
    have hc : ∀ k s, c.entries k = some s → selectByID db k = some s := fun k s hk =>
      hr k s (by simpa [SubscriptionRepository.cached] using hk)
    have hdelc : ∀ k s, (c.DeleteSubscription e.ID delOk).1.entries k = some s →
        selectByID db k = some s := by
      intro k s hk
      cases delOk with
      | false => exact hc k s (by simpa [cache.RedisClient.DeleteSubscription] using hk)
      | true =>
        by_cases hki : k = e.ID
        · simp [cache.RedisClient.DeleteSubscription, hki] at hk
        · exact hc k s (by simpa [cache.RedisClient.DeleteSubscription, hki] using hk)
    cases dbOk with
    | false =>
      intro k s hk
      exact hdelc k s (by
        simpa [SubscriptionRepository.UpdateSubscription, SubscriptionRepository.cached]
          using hk)
    | true =>
      cases hret : updateReturning db e with
      | nil =>
        have hnone := (updateReturning_eq_nil_iff db e).1 hret
        intro k s hk
        simp only [SubscriptionRepository.UpdateSubscription, if_true, hret,
          updateByID_of_no_row db e hnone, Option.map_some',
          SubscriptionRepository.cached] at hk ⊢
        exact hdelc k s hk
      | cons i is =>
        have hsome : selectByID db e.ID ≠ none := by
          intro hnone
          rw [(updateReturning_eq_nil_iff db e).2 hnone] at hret
          cases hret
        intro k s hk
        simp only [SubscriptionRepository.UpdateSubscription, if_true, hret,
          Option.map_some', SubscriptionRepository.cached] at hk ⊢
        by_cases hki : k = e.ID
        · subst hki
          rw [selectByID_updateByID_self db e hsome]
          cases setOk with
          | true =>
            simpa [cache.RedisClient.SetSubscription] using hk
          | false =>
            have hd : delOk = true := by simpa using h
            subst hd
            simp [cache.RedisClient.SetSubscription,
              cache.RedisClient.DeleteSubscription] at hk
        · rw [selectByID_updateByID_other db e hki]
          apply hdelc k s
          cases setOk with
          | true => simpa [cache.RedisClient.SetSubscription, hki] using hk
          | false => simpa [cache.RedisClient.SetSubscription] using hk

theorem cacheHit_eq (r : SubscriptionRepository) (id : Int) (getOk : Bool) :
    r.cacheHit id getOk = if getOk = true then r.cached id else none := by
  obtain ⟨db, c⟩ := r
  cases c with
  | none => cases getOk <;> rfl
  | some c =>
    cases getOk with
    | false => rfl
    | true =>
      cases h : c.entries id <;>
        simp [SubscriptionRepository.cacheHit, SubscriptionRepository.cached,
          cache.RedisClient.GetSubscription, h]

theorem get_value (r : SubscriptionRepository) (id : Int) (getOk dbOk setOk : Bool) :
    (r.GetSubscriptionByID id getOk dbOk setOk).value =
      match r.cacheHit id getOk with
      | some sub => Except.ok sub
      | none =>
        if dbOk = true then
          match selectByID r.db id with
          | some row => Except.ok row
          | none => Except.error Error.notFound
        else Except.error Error.getFailed := by
  obtain ⟨db, c⟩ := r
  cases c with
  | none =>
    cases dbOk <;> cases hrow : selectByID db id <;>
      simp [SubscriptionRepository.GetSubscriptionByID, SubscriptionRepository.cacheHit, hrow]
  | some c =>
    cases hget : c.GetSubscription id getOk <;> cases dbOk <;>
      cases hrow : selectByID db id <;>
      simp [SubscriptionRepository.GetSubscriptionByID, SubscriptionRepository.cacheHit,
        hget, hrow]

theorem get_db (r : SubscriptionRepository) (id : Int) (getOk dbOk setOk : Bool) :
    (r.GetSubscriptionByID id getOk dbOk setOk).repo.db = r.db := by
  obtain ⟨db, c⟩ := r
  cases c with
  | none =>
    cases dbOk <;> cases hrow : selectByID db id <;>
      simp [SubscriptionRepository.GetSubscriptionByID, hrow]
  | some c =>
    cases hget : c.GetSubscription id getOk <;> cases dbOk <;>
      cases hrow : selectByID db id <;>
      simp [SubscriptionRepository.GetSubscriptionByID, hget, hrow]

theorem delete_value (r : SubscriptionRepository) (id : Int) (execOk rowsOk delOk : Bool) :
    (r.DeleteSubscription id execOk rowsOk delOk).value =
      if execOk = true then
        if rowsOk = true then
          match selectByID r.db id with
          | some _ => none
          | none => some Error.notFound
        else some Error.rowsAffectedFailed
      else some Error.deleteFailed := by
  obtain ⟨db, c⟩ := r
  cases execOk <;> cases rowsOk <;> try rfl
  cases hrow : selectByID db id with
  | none =>
    have hn := (rowsAffected_eq_zero_iff db id).2 hrow
    simp [SubscriptionRepository.DeleteSubscription, hn]
  | some row =>
    have hn : rowsAffected db id ≠ 0 := by
      intro h0
      rw [(rowsAffected_eq_zero_iff db id).1 h0] at hrow
      cases hrow
    cases c <;> simp [SubscriptionRepository.DeleteSubscription, hn]

theorem delete_db (r : SubscriptionRepository) (id : Int) (execOk rowsOk delOk : Bool) :
    (r.DeleteSubscription id execOk rowsOk delOk).repo.db =
      if execOk = true then deleteByID r.db id else r.db := by
  obtain ⟨db, c⟩ := r
  cases execOk <;> cases rowsOk <;> try rfl
  by_cases hn : rowsAffected db id = 0
  · simp [SubscriptionRepository.DeleteSubscription, hn]
  · cases c <;> simp [SubscriptionRepository.DeleteSubscription, hn]

theorem delete_cached (r : SubscriptionRepository) (id : Int) (execOk rowsOk delOk : Bool)
    (k : Int) :
    (r.DeleteSubscription id execOk rowsOk delOk).repo.cached k =
      if (r.DeleteSubscription id execOk rowsOk delOk).value = none ∧ delOk = true ∧ k = id
      then none else r.cached k := by
  rw [delete_value]
  obtain ⟨db, c⟩ := r
  cases execOk <;> cases rowsOk <;>
    try simp [SubscriptionRepository.DeleteSubscription, SubscriptionRepository.cached]
  cases hrow : selectByID db id with
  | none =>
    have hn := (rowsAffected_eq_zero_iff db id).2 hrow
    simp [hn, SubscriptionRepository.cached]
  | some row =>
    have hn : rowsAffected db id ≠ 0 := by
      intro h0
      rw [(rowsAffected_eq_zero_iff db id).1 h0] at hrow
      cases hrow
    cases c with
    | none => simp [hn, SubscriptionRepository.cached]
    | some c =>
      cases delOk <;> by_cases hk : k = id <;>
        simp [hn, SubscriptionRepository.cached, cache.RedisClient.DeleteSubscription, hk]

theorem update_value (r : SubscriptionRepository) (e : Subscription)
    (delOk dbOk setOk : Bool) :
    (r.UpdateSubscription e delOk dbOk setOk).value =
      if dbOk = true then
        match selectByID r.db e.ID with
        | some _ => none
        | none => some Error.updateFailed
      else some Error.updateFailed := by
  obtain ⟨db, c⟩ := r
  cases dbOk with
  | false => rfl
  | true =>
    cases hrow : selectByID db e.ID with
    | none =>
      have hn := (updateReturning_eq_nil_iff db e).2 hrow
      simp [SubscriptionRepository.UpdateSubscription, hn]
    | some row =>
      cases hret : updateReturning db e with
      | nil =>
        rw [(updateReturning_eq_nil_iff db e).1 hret] at hrow
        cases hrow
      | cons i is =>
        cases c <;> simp [SubscriptionRepository.UpdateSubscription, hret]

theorem update_db (r : SubscriptionRepository) (e : Subscription)
    (delOk dbOk setOk : Bool) :
    (r.UpdateSubscription e delOk dbOk setOk).repo.db =
      if dbOk = true then updateByID r.db e else r.db := by
  obtain ⟨db, c⟩ := r
  cases dbOk with
  | false => rfl
  | true =>
    cases hret : updateReturning db e <;> cases c <;>
      simp [SubscriptionRepository.UpdateSubscription, hret]

theorem update_cached (r : SubscriptionRepository) (e : Subscription)
    (delOk dbOk setOk : Bool) (k : Int) :
    (r.UpdateSubscription e delOk dbOk setOk).repo.cached k =
      if (r.UpdateSubscription e delOk dbOk setOk).value = none ∧ setOk = true ∧ k = e.ID
          ∧ r.cache.isSome = true
      then some e
      else if delOk = true ∧ k = e.ID then none else r.cached k := by
  rw [update_value]
  obtain ⟨db, c⟩ := r
  cases c with
  | none =>
    cases dbOk <;> cases hret : updateReturning db e <;>
      simp [SubscriptionRepository.UpdateSubscription, SubscriptionRepository.cached, hret]
  | some c =>
    cases dbOk with
    | false =>
      cases delOk <;> by_cases hk : k = e.ID <;>
        simp [SubscriptionRepository.UpdateSubscription, SubscriptionRepository.cached,
          cache.RedisClient.DeleteSubscription, hk]
    | true =>
      cases hrow : selectByID db e.ID with
      | none =>
        have hn := (updateReturning_eq_nil_iff db e).2 hrow
        cases delOk <;> by_cases hk : k = e.ID <;>
          simp [SubscriptionRepository.UpdateSubscription, SubscriptionRepository.cached,
            cache.RedisClient.DeleteSubscription, hk, hn]
      | some row =>
        cases hret : updateReturning db e with
        | nil =>
          rw [(updateReturning_eq_nil_iff db e).1 hret] at hrow
          cases hrow
        | cons i is =>
          cases delOk <;> cases setOk <;> by_cases hk : k = e.ID <;>
            simp [SubscriptionRepository.UpdateSubscription, SubscriptionRepository.cached,
              cache.RedisClient.DeleteSubscription, cache.RedisClient.SetSubscription, hk,
              hret]

theorem insert_value (r : SubscriptionRepository) (sub : Subscription)
    (dbOut : Option Int) (setOk : Bool) :
    (r.InsertSubscription sub dbOut setOk).value =
        (match dbOut with
          | some id => Except.ok id
          | none => Except.error Error.createFailed)
      ∧ (r.InsertSubscription sub dbOut setOk).repo.db =
        (match dbOut with
          | some id => insertRow r.db id sub
          | none => r.db) := by
  obtain ⟨db, c⟩ := r
  cases dbOut <;> cases c <;> simp [SubscriptionRepository.InsertSubscription]

theorem cachedRepo_consistent : cachedRepo.Consistent := by
  intro k s hk
  by_cases h1 : k = 1
  · subst h1
    have hs : netflix = s := by
      simpa [cachedRepo, SubscriptionRepository.cached, netflixCache] using hk
    rw [← hs]
    decide
  · simp [cachedRepo, SubscriptionRepository.cached, netflixCache, h1] at hk

/-- C5, as stated, fails: from a consistent repository, a DeleteSubscription
whose cache delete fails returns success and leaves a cache entry for an
identifier that has no store row. -/
theorem failed_cache_delete_breaks_consistency :
    cachedRepo.Consistent
      ∧ (cachedRepo.DeleteSubscription 1 true true false).value = none
      ∧ (cachedRepo.DeleteSubscription 1 true true false).repo.cached 1 = some netflix
      ∧ selectByID (cachedRepo.DeleteSubscription 1 true true false).repo.db 1 = none
      ∧ ¬ (cachedRepo.DeleteSubscription 1 true true false).repo.Consistent := by
  refine ⟨cachedRepo_consistent, by decide, by decide, by decide, ?_⟩
  intro h
  have h1 := h 1 netflix (by decide)
  exact absurd h1 (by decide)

/-- C5, amended: from a consistent repository, every one of the six operations
leaves the repository consistent, whatever its result and whatever the
outcomes of its cache read and write calls, provided that the cache delete of
DeleteSubscription succeeds, that in UpdateSubscription the cache delete or
the cache write succeeds, that the store assigns a new row an identifier no
row has, and that the store reports the rows DeleteSubscription affected. -/
theorem operations_preserve_consistency (r : SubscriptionRepository) (hr : r.Consistent) :
    (∀ sub dbOut setOk, (∀ id, dbOut = some id → selectByID r.db id = none) →
        (r.InsertSubscription sub dbOut setOk).repo.Consistent)
      ∧ (∀ id getOk dbOk setOk, (r.GetSubscriptionByID id getOk dbOk setOk).repo.Consistent)
      ∧ (∀ e delOk dbOk setOk, (delOk = true ∨ setOk = true) →
        (r.UpdateSubscription e delOk dbOk setOk).repo.Consistent)
      ∧ (∀ id execOk rowsOk delOk, rowsOk = true → delOk = true →
        (r.DeleteSubscription id execOk rowsOk delOk).repo.Consistent)
      ∧ (∀ dbOut, (r.GetAllSubscription dbOut).repo.Consistent)
      ∧ (∀ s e u n dbOut, (r.SumTotalSubscriptions s e u n dbOut).repo.Consistent) := by
  refine ⟨?_, ?_, ?_, ?_, ?_, ?_⟩
  · intro sub dbOut setOk hfresh
    exact insert_consistent r hr sub dbOut setOk hfresh
  · intro id getOk dbOk setOk
    exact get_consistent r hr id getOk dbOk setOk
  · intro e delOk dbOk setOk h
    exact update_consistent r hr e delOk dbOk setOk h
  · intro id execOk rowsOk delOk hrows hdel
    exact delete_consistent r hr id execOk rowsOk delOk hrows hdel
  · intro dbOut
    cases dbOut <;> exact hr
  · intro s e u n dbOut
    rcases dbOut with _ | _ | total <;> exact hr

/-- Witness of C5: the repository holding `netflix` in store and cache stays
consistent under a delete whose cache delete succeeds, under an update whose
cache delete fails and cache write succeeds, and under an insert whose cache
write fails. -/
theorem operations_preserve_consistency_witness :
    cachedRepo.Consistent
      ∧ (cachedRepo.DeleteSubscription 1 true true true).repo.Consistent
      ∧ (cachedRepo.UpdateSubscription netflixRaised false true true).repo.Consistent
      ∧ (cachedRepo.InsertSubscription netflixRaised (some 2) false).repo.Consistent :=
  ⟨cachedRepo_consistent,
    (operations_preserve_consistency cachedRepo cachedRepo_consistent).2.2.2.1
      1 true true true rfl rfl,
    (operations_preserve_consistency cachedRepo cachedRepo_consistent).2.2.1
      netflixRaised false true true (Or.inr rfl),
    (operations_preserve_consistency cachedRepo cachedRepo_consistent).1
      netflixRaised (some 2) false (by
        intro id h
        cases h
        decide)⟩

/-- C6, as stated, fails: the store row deleted and the cache delete failed,
DeleteSubscription returns success and the following GetSubscriptionByID
returns the entity from the cache. -/
theorem get_after_delete_returns_cached_entity :
    selectByID cachedRepo.db 1 = some netflix
      ∧ (cachedRepo.DeleteSubscription 1 true true false).value = none
      ∧ ((cachedRepo.DeleteSubscription 1 true true false).repo.GetSubscriptionByID 1
          true true true).value = Except.ok netflix := by
  exact ⟨by decide, by decide, rfl⟩

/-- C6, amended: for an identifier with a store row, DeleteSubscription whose
store calls are answered returns success; a following GetSubscriptionByID
whose store query is answered then returns the not-found error, provided the
cache delete succeeded, or the cache held no entry for the identifier, or the
cache lookup fails; and a second DeleteSubscription whose store calls are
answered returns the not-found error whatever the cache calls did. -/
theorem get_after_delete_not_found (r : SubscriptionRepository) (id : Int)
    (delOk getOk dbOk setOk execOk2 rowsOk2 delOk2 : Bool)
    (hrow : selectByID r.db id ≠ none) :
    (r.DeleteSubscription id true true delOk).value = none
      ∧ ((delOk = true ∨ r.cached id = none ∨ getOk = false) → dbOk = true →
        ((r.DeleteSubscription id true true delOk).repo.GetSubscriptionByID id
          getOk dbOk setOk).value = Except.error Error.notFound)
      ∧ (execOk2 = true → rowsOk2 = true →
        ((r.DeleteSubscription id true true delOk).repo.DeleteSubscription id
          execOk2 rowsOk2 delOk2).value = some Error.notFound) := by
  have hok : (r.DeleteSubscription id true true delOk).value = none := by
    rw [delete_value]
    cases h : selectByID r.db id with
    | none => exact absurd h hrow
    | some row => rfl
  have hdb : (r.DeleteSubscription id true true delOk).repo.db = deleteByID r.db id := by
    rw [delete_db]; rfl
  have hgone : selectByID (r.DeleteSubscription id true true delOk).repo.db id = none := by
    rw [hdb]; exact selectByID_deleteByID_self r.db id
  refine ⟨hok, ?_, ?_⟩
  · intro hcache hdbOk
    have hhit : (r.DeleteSubscription id true true delOk).repo.cacheHit id getOk = none := by
      rw [cacheHit_eq, delete_cached]
      rcases hcache with h | h | h
      · subst h
        simp [hok]
      · simp [h]
      · simp [h]
    rw [get_value, hhit, hgone, hdbOk]
    rfl
  · intro h1 h2
    rw [delete_value, hgone, h1, h2]
    rfl

/-- Witness of C6: `netflix` deleted with a successful cache delete, then read
and deleted again. -/
theorem get_after_delete_not_found_witness :
    ((cachedRepo.DeleteSubscription 1 true true true).repo.GetSubscriptionByID 1
        true true true).value = Except.error Error.notFound
      ∧ ((cachedRepo.DeleteSubscription 1 true true true).repo.DeleteSubscription 1
        true true true).value = some Error.notFound :=
  ⟨(get_after_delete_not_found cachedRepo 1 true true true true true true true
      (by decide)).2.1 (Or.inl rfl) rfl,
    (get_after_delete_not_found cachedRepo 1 true true true true true true true
      (by decide)).2.2 rfl rfl⟩

/-- C7, as stated, fails: with the old entry cached, an UpdateSubscription
whose cache delete and cache write both fail returns success, and the
following GetSubscriptionByID returns the cached pre-update price. -/
theorem get_after_update_returns_stale_entry :
    selectByID cachedRepo.db netflixRaised.ID = some netflix
      ∧ (cachedRepo.UpdateSubscription netflixRaised false true false).value = none
      ∧ ((cachedRepo.UpdateSubscription netflixRaised false true false).repo.GetSubscriptionByID
          netflixRaised.ID true true true).value = Except.ok netflix
      ∧ netflix.Price ≠ netflixRaised.Price := by
  exact ⟨by decide, by decide, rfl, by decide⟩

/-- C7, amended: when UpdateSubscription returns success, a following
GetSubscriptionByID whose store query is answered returns an entity with the
service name, price, user id, start date and end date of the update, provided
the cache delete or the cache write of the update succeeded, or the cache held
no entry for the identifier, or the cache lookup fails. -/
theorem get_after_update_returns_update (r : SubscriptionRepository) (e : Subscription)
    (delOk dbOk setOk getOk dbOk2 setOk2 : Bool)
    (hok : (r.UpdateSubscription e delOk dbOk setOk).value = none)
    (hcache : delOk = true ∨ setOk = true ∨ r.cached e.ID = none ∨ getOk = false)
    (hdb2 : dbOk2 = true) :
    ∃ x, ((r.UpdateSubscription e delOk dbOk setOk).repo.GetSubscriptionByID e.ID
          getOk dbOk2 setOk2).value = Except.ok x
      ∧ x.ID = e.ID ∧ x.ServiceName = e.ServiceName ∧ x.Price = e.Price
      ∧ x.UserID = e.UserID ∧ x.StartDate = e.StartDate ∧ x.EndDate = e.EndDate := by
  have hdbOk : dbOk = true := by
    cases dbOk
    · simp [update_value] at hok
    · rfl
  have hrow : selectByID r.db e.ID ≠ none := by
    intro hnone
    rw [update_value, hdbOk, hnone] at hok
    simp at hok
  have hstore : selectByID (r.UpdateSubscription e delOk dbOk setOk).repo.db e.ID = some e := by
    rw [update_db, hdbOk]
    exact selectByID_updateByID_self r.db e hrow
  have hhit : (r.UpdateSubscription e delOk dbOk setOk).repo.cacheHit e.ID getOk = some e
      ∨ (r.UpdateSubscription e delOk dbOk setOk).repo.cacheHit e.ID getOk = none := by
    rw [cacheHit_eq, update_cached]
    cases getOk with
    | false => right; rfl
    | true =>
      by_cases hset : setOk = true ∧ r.cache.isSome = true
      · left
        have hyes : (r.UpdateSubscription e delOk dbOk setOk).value = none ∧ setOk = true
            ∧ e.ID = e.ID ∧ r.cache.isSome = true := ⟨hok, hset.1, rfl, hset.2⟩
        rw [if_pos rfl, if_pos hyes]
      · right
        have hnot : ¬ ((r.UpdateSubscription e delOk dbOk setOk).value = none ∧ setOk = true
            ∧ e.ID = e.ID ∧ r.cache.isSome = true) := fun h => hset ⟨h.2.1, h.2.2.2⟩
        rw [if_pos rfl, if_neg hnot]
        rcases hcache with h | h | h | h
        · simp [h]
        · have hc : r.cached e.ID = none := by
            cases hcv : r.cache with
            | none => simp [SubscriptionRepository.cached, hcv]
            | some c => exact absurd ⟨h, by simp [hcv]⟩ hset
          simp [hc]
        · simp [h]
        · cases h
  refine ⟨e, ?_, rfl, rfl, rfl, rfl, rfl, rfl⟩
  rw [get_value]
  rcases hhit with h | h
  · rw [h]
  · rw [h, hstore, hdb2]
    rfl

/-- Witness of C7: `netflix` updated to the raised price with the cache delete
failing and the cache write succeeding, then read through the cache. -/
theorem get_after_update_returns_update_witness :
    ∃ x, ((cachedRepo.UpdateSubscription netflixRaised false true true).repo.GetSubscriptionByID
          netflixRaised.ID true true true).value = Except.ok x
      ∧ x.ID = netflixRaised.ID ∧ x.ServiceName = netflixRaised.ServiceName
      ∧ x.Price = netflixRaised.Price ∧ x.UserID = netflixRaised.UserID
      ∧ x.StartDate = netflixRaised.StartDate ∧ x.EndDate = netflixRaised.EndDate :=
  get_after_update_returns_update cachedRepo netflixRaised false true true true true true
    (by decide) (Or.inr (Or.inl rfl)) rfl

theorem get_queriesStore (r : SubscriptionRepository) (id : Int) (getOk dbOk setOk : Bool) :
    queriesStore (r.GetSubscriptionByID id getOk dbOk setOk).calls =
      (r.cacheHit id getOk).isNone := by
  obtain ⟨db, c⟩ := r
  cases c with
  | none =>
    cases dbOk <;> cases hrow : selectByID db id <;>
      simp [SubscriptionRepository.GetSubscriptionByID, SubscriptionRepository.cacheHit, hrow,
        queriesStore]
  | some c =>
    cases hget : c.GetSubscription id getOk <;> cases dbOk <;>
      cases hrow : selectByID db id <;>
      simp [SubscriptionRepository.GetSubscriptionByID, SubscriptionRepository.cacheHit,
        hget, hrow, queriesStore]

/-- C8, as stated, fails: with an entry cached, an UpdateSubscription whose
cache delete fails and whose store update fails returns an error and leaves
the store unchanged, but the cache still holds the entry. -/
theorem failed_update_keeps_cache_entry :
    cachedRepo.cached netflixRaised.ID = some netflix
      ∧ (cachedRepo.UpdateSubscription netflixRaised false false true).value
          = some Error.updateFailed
      ∧ (cachedRepo.UpdateSubscription netflixRaised false false true).repo.db = cachedRepo.db
      ∧ (cachedRepo.UpdateSubscription netflixRaised false false true).repo.cached
          netflixRaised.ID = some netflix := by
  exact ⟨by decide, by decide, by decide, by decide⟩

/-- C8, amended: when the store update of UpdateSubscription fails (the
statement fails, or it updates no row), UpdateSubscription returns an error
and the store is unchanged; and when the cache delete that precedes it
succeeded, or no entry was cached for the identifier, the cache afterwards
holds no entry for it and the next GetSubscriptionByID queries the store. -/
theorem failed_update_leaves_store_unchanged (r : SubscriptionRepository) (e : Subscription)
    (delOk dbOk setOk getOk dbOk2 setOk2 : Bool)
    (hfail : dbOk = false ∨ updateReturning r.db e = []) :
    (r.UpdateSubscription e delOk dbOk setOk).value = some Error.updateFailed
      ∧ (r.UpdateSubscription e delOk dbOk setOk).repo.db = r.db
      ∧ ((delOk = true ∨ r.cached e.ID = none) →
        (r.UpdateSubscription e delOk dbOk setOk).repo.cached e.ID = none
          ∧ queriesStore ((r.UpdateSubscription e delOk dbOk setOk).repo.GetSubscriptionByID
              e.ID getOk dbOk2 setOk2).calls = true) := by
  have hval : (r.UpdateSubscription e delOk dbOk setOk).value = some Error.updateFailed := by
    rw [update_value]
    rcases hfail with h | h
    · rw [h]; rfl
    · rw [(updateReturning_eq_nil_iff r.db e).1 h]
      cases dbOk <;> rfl
  have hdb : (r.UpdateSubscription e delOk dbOk setOk).repo.db = r.db := by
    rw [update_db]
    rcases hfail with h | h
    · rw [h]; rfl
    · rw [updateByID_of_no_row r.db e ((updateReturning_eq_nil_iff r.db e).1 h)]
      cases dbOk <;> rfl
  refine ⟨hval, hdb, ?_⟩
  intro hc
  have hnone : (r.UpdateSubscription e delOk dbOk setOk).repo.cached e.ID = none := by
    rw [update_cached, hval]
    rcases hc with h | h
    · simp [h]
    · simp [h]
  refine ⟨hnone, ?_⟩
  rw [get_queriesStore, cacheHit_eq, hnone]
  cases getOk <;> rfl

/-- Witness of C8: the update of `netflix` whose cache delete succeeds and
whose store statement fails. -/
theorem failed_update_leaves_store_unchanged_witness :
    (cachedRepo.UpdateSubscription netflixRaised true false true).value
        = some Error.updateFailed
      ∧ (cachedRepo.UpdateSubscription netflixRaised true false true).repo.db = cachedRepo.db
      ∧ (cachedRepo.UpdateSubscription netflixRaised true false true).repo.cached
          netflixRaised.ID = none :=
  ⟨(failed_update_leaves_store_unchanged cachedRepo netflixRaised true false true true true
      true (Or.inl rfl)).1,
    (failed_update_leaves_store_unchanged cachedRepo netflixRaised true false true true true
      true (Or.inl rfl)).2.1,
    ((failed_update_leaves_store_unchanged cachedRepo netflixRaised true false true true true
      true (Or.inl rfl)).2.2 (Or.inl rfl)).1⟩

/-- C9, as stated, fails for GetSubscriptionByID: on the repository a delete
with a failed cache delete leaves behind (no row, entry still cached), the
read returns the entity when its cache read succeeds, and the not-found error
when the cache read fails or no cache is configured. -/
theorem get_result_depends_on_cache_read :
    (cachedRepo.DeleteSubscription 1 true true false).repo.db = staleRepo.db
      ∧ (cachedRepo.DeleteSubscription 1 true true false).repo.cached 1 = staleRepo.cached 1
      ∧ (staleRepo.GetSubscriptionByID 1 true true true).value = Except.ok netflix
      ∧ (staleRepo.GetSubscriptionByID 1 false true true).value
          = Except.error Error.notFound
      ∧ ((SubscriptionRepository.mk staleRepo.db none).GetSubscriptionByID 1 true true
          true).value = Except.error Error.notFound := by
  exact ⟨by decide, by decide, rfl, rfl, rfl⟩

/-- C9, amended: for every store state, the result and the resulting store
state of InsertSubscription, UpdateSubscription and DeleteSubscription are the
same for every cache state, every outcome of their cache calls, and with no
cache configured; for GetSubscriptionByID they are the same whenever the store
query does not fail and the cache entry for the identifier, if there is one, is
the store row with that identifier. -/
theorem cache_outcomes_do_not_change_results (db : List Subscription)
    (c c2 : Option cache.RedisClient) :
    (∀ sub dbOut setOk setOk2,
        ((SubscriptionRepository.mk db c).InsertSubscription sub dbOut setOk).value
            = ((SubscriptionRepository.mk db c2).InsertSubscription sub dbOut setOk2).value
          ∧ ((SubscriptionRepository.mk db c).InsertSubscription sub dbOut setOk).repo.db
            = ((SubscriptionRepository.mk db c2).InsertSubscription sub dbOut setOk2).repo.db)
      ∧ (∀ e dbOk delOk setOk delOk2 setOk2,
        ((SubscriptionRepository.mk db c).UpdateSubscription e delOk dbOk setOk).value
            = ((SubscriptionRepository.mk db c2).UpdateSubscription e delOk2 dbOk setOk2).value
          ∧ ((SubscriptionRepository.mk db c).UpdateSubscription e delOk dbOk setOk).repo.db
            = ((SubscriptionRepository.mk db c2).UpdateSubscription e delOk2 dbOk
                setOk2).repo.db)
      ∧ (∀ id execOk rowsOk delOk delOk2,
        ((SubscriptionRepository.mk db c).DeleteSubscription id execOk rowsOk delOk).value
            = ((SubscriptionRepository.mk db c2).DeleteSubscription id execOk rowsOk
                delOk2).value
          ∧ ((SubscriptionRepository.mk db c).DeleteSubscription id execOk rowsOk delOk).repo.db
            = ((SubscriptionRepository.mk db c2).DeleteSubscription id execOk rowsOk
                delOk2).repo.db)
      ∧ (∀ id getOk setOk getOk2 setOk2,
        (∀ s, (SubscriptionRepository.mk db c).cached id = some s → selectByID db id = some s) →
        (∀ s, (SubscriptionRepository.mk db c2).cached id = some s →
          selectByID db id = some s) →
        ((SubscriptionRepository.mk db c).GetSubscriptionByID id getOk true setOk).value
            = ((SubscriptionRepository.mk db c2).GetSubscriptionByID id getOk2 true
                setOk2).value
          ∧ ((SubscriptionRepository.mk db c).GetSubscriptionByID id getOk true setOk).repo.db
            = ((SubscriptionRepository.mk db c2).GetSubscriptionByID id getOk2 true
                setOk2).repo.db) := by
  refine ⟨?_, ?_, ?_, ?_⟩
  · intro sub dbOut setOk setOk2
    exact ⟨by rw [(insert_value _ _ _ _).1, (insert_value _ _ _ _).1],
      by rw [(insert_value _ _ _ _).2, (insert_value _ _ _ _).2]⟩
  · intro e dbOk delOk setOk delOk2 setOk2
    exact ⟨by rw [update_value, update_value], by rw [update_db, update_db]⟩
  · intro id execOk rowsOk delOk delOk2
    exact ⟨by rw [delete_value, delete_value], by rw [delete_db, delete_db]⟩
  · intro id getOk setOk getOk2 setOk2 h1 h2
    have key : ∀ (c : Option cache.RedisClient) (getOk setOk : Bool),
        (∀ s, (SubscriptionRepository.mk db c).cached id = some s →
          selectByID db id = some s) →
        ((SubscriptionRepository.mk db c).GetSubscriptionByID id getOk true setOk).value =
          match selectByID db id with
          | some row => Except.ok row
          | none => Except.error Error.notFound := by
      intro c getOk setOk h
      rw [get_value, cacheHit_eq]
      cases getOk with
      | false => rfl
      | true =>
        cases hc : (SubscriptionRepository.mk db c).cached id with
        | none => rfl
        | some s => simp [h s hc]
    exact ⟨by rw [key c getOk setOk h1, key c2 getOk2 setOk2 h2], by rw [get_db, get_db]⟩

/-- Witness of C9: reading `netflix` with the cache read succeeding, and with
no cache configured, gives the same result. -/
theorem cache_outcomes_do_not_change_results_witness :
    (cachedRepo.GetSubscriptionByID 1 true true true).value
      = ((SubscriptionRepository.mk cachedRepo.db none).GetSubscriptionByID 1 false true
          false).value :=
  ((cache_outcomes_do_not_change_results [netflix] (some netflixCache) none).2.2.2
    1 true true false false
    (fun s hs => cachedRepo_consistent 1 s hs)
    (fun s hs => by simp [SubscriptionRepository.cached] at hs)).1

/-- C10: GetSubscriptionByID is a read-through lookup. When the cache lookup
succeeds with an entry, that entry is returned, the repository (store and
cache) is unchanged and the store is not queried. Otherwise the store is
queried; when the query is answered with a row, that row (its end date as
stored, absent when null) is returned, and if a cache is configured and the
cache write succeeds the cache afterwards holds the row under the identifier;
when it is answered with no row, the not-found error is returned and the
repository is unchanged. -/
theorem get_is_read_through (r : SubscriptionRepository) (id : Int)
    (getOk dbOk setOk : Bool) :
    (∀ s, r.cacheHit id getOk = some s →
        (r.GetSubscriptionByID id getOk dbOk setOk).value = Except.ok s
          ∧ (r.GetSubscriptionByID id getOk dbOk setOk).repo = r
          ∧ queriesStore (r.GetSubscriptionByID id getOk dbOk setOk).calls = false)
      ∧ (r.cacheHit id getOk = none →
        queriesStore (r.GetSubscriptionByID id getOk dbOk setOk).calls = true)
      ∧ (∀ row, r.cacheHit id getOk = none → dbOk = true → selectByID r.db id = some row →
        (r.GetSubscriptionByID id getOk dbOk setOk).value = Except.ok row
          ∧ row.ID = id
          ∧ (r.GetSubscriptionByID id getOk dbOk setOk).repo.db = r.db
          ∧ (r.cache.isSome = true → setOk = true →
            (r.GetSubscriptionByID id getOk dbOk setOk).repo.cached id = some row))
      ∧ (r.cacheHit id getOk = none → dbOk = true → selectByID r.db id = none →
        (r.GetSubscriptionByID id getOk dbOk setOk).value = Except.error Error.notFound
          ∧ (r.GetSubscriptionByID id getOk dbOk setOk).repo = r) := by
  refine ⟨?_, ?_, ?_, ?_⟩
  · intro s hs
    refine ⟨by rw [get_value, hs], ?_, by rw [get_queriesStore, hs]; rfl⟩
    obtain ⟨db, c⟩ := r
    cases c with
    | none => simp [SubscriptionRepository.cacheHit] at hs
    | some c =>
      cases hget : c.GetSubscription id getOk with
      | error err => simp [SubscriptionRepository.cacheHit, hget] at hs
      | ok sub => simp [SubscriptionRepository.GetSubscriptionByID, hget]
  · intro hs
    rw [get_queriesStore, hs]
    rfl
  · intro row hs hdb hrow
    refine ⟨by rw [get_value, hs, hdb, hrow]; rfl, selectByID_id hrow, get_db r id _ _ _, ?_⟩
    intro hc hset
    have hid : row.ID = id := selectByID_id hrow
    obtain ⟨db, c⟩ := r
    subst hdb hset
    cases c with
    | none => simp at hc
    | some c =>
      cases hget : c.GetSubscription id getOk with
      | ok sub => simp [SubscriptionRepository.cacheHit, hget] at hs
      | error err =>
        simp only at hrow
        simp [SubscriptionRepository.GetSubscriptionByID, hget, hrow,
          SubscriptionRepository.cached, cache.RedisClient.SetSubscription, hid]
  · intro hs hdb hrow
    refine ⟨by rw [get_value, hs, hdb, hrow]; rfl, ?_⟩
    obtain ⟨db, c⟩ := r
    subst hdb
    simp only at hrow
    cases c with
    | none => simp [SubscriptionRepository.GetSubscriptionByID, hrow]
    | some c =>
      cases hget : c.GetSubscription id getOk with
      | ok sub => simp [SubscriptionRepository.cacheHit, hget] at hs
      | error err => simp [SubscriptionRepository.GetSubscriptionByID, hget, hrow]

/-- Witness of C10: with the cache read failing, `netflix` is read from the
store and written back to the cache; with the cache read succeeding it comes
from the cache and the store is not queried. -/
theorem get_is_read_through_witness :
    ((cachedRepo.GetSubscriptionByID 1 false true true).value = Except.ok netflix
        ∧ netflix.ID = 1
        ∧ (cachedRepo.GetSubscriptionByID 1 false true true).repo.db = cachedRepo.db
        ∧ (cachedRepo.cache.isSome = true → true = true →
          (cachedRepo.GetSubscriptionByID 1 false true true).repo.cached 1 = some netflix))
      ∧ ((cachedRepo.GetSubscriptionByID 1 true true true).value = Except.ok netflix
        ∧ (cachedRepo.GetSubscriptionByID 1 true true true).repo = cachedRepo
        ∧ queriesStore (cachedRepo.GetSubscriptionByID 1 true true true).calls = false) :=
  ⟨(get_is_read_through cachedRepo 1 false true true).2.2.1 netflix rfl rfl (by decide),
    (get_is_read_through cachedRepo 1 true true true).1 netflix rfl⟩

theorem insert_cached (r : SubscriptionRepository) (sub : Subscription) (id : Int)
    (setOk : Bool) (k : Int) :
    (r.InsertSubscription sub (some id) setOk).repo.cached k =
      if setOk = true ∧ k = id ∧ r.cache.isSome = true then some { sub with ID := id }
      else r.cached k := by
  obtain ⟨db, c⟩ := r
  cases c with
  | none => simp [SubscriptionRepository.InsertSubscription, SubscriptionRepository.cached]
  | some c =>
    cases setOk <;> by_cases hk : k = id <;>
      simp [SubscriptionRepository.InsertSubscription, SubscriptionRepository.cached,
        cache.RedisClient.SetSubscription, hk]

/-- C11, as stated, fails: with an entry left in the cache under the
identifier the store assigns, an InsertSubscription whose cache write fails
returns the identifier, and the following GetSubscriptionByID returns the
cached entry, not the entity inserted. -/
theorem get_after_insert_returns_leftover_entry :
    selectByID staleRepo.db 1 = none
      ∧ (staleRepo.InsertSubscription netflixRaised (some 1) false).value = Except.ok 1
      ∧ ((staleRepo.InsertSubscription netflixRaised (some 1) false).repo.GetSubscriptionByID 1
          true true true).value = Except.ok netflix
      ∧ netflix.Price ≠ netflixRaised.Price := by
  exact ⟨by decide, rfl, rfl, by decide⟩

/-- C11, amended: when the store insert succeeds with an assigned identifier
that no row had, InsertSubscription returns that identifier, and a following
GetSubscriptionByID whose store query is answered returns an entity with that
identifier and the service name, price, user id, start date and end date of
the entity inserted, with or without a cache configured, provided the cache
write of the insert succeeded, or the cache held no entry under the
identifier, or the cache lookup of the read fails. -/
theorem insert_then_get_round_trip (r : SubscriptionRepository) (e : Subscription)
    (id : Int) (setOk getOk dbOk2 setOk2 : Bool)
    (hfresh : selectByID r.db id = none)
    (hcache : setOk = true ∨ r.cached id = none ∨ getOk = false)
    (hdb2 : dbOk2 = true) :
    (r.InsertSubscription e (some id) setOk).value = Except.ok id
      ∧ ∃ x, ((r.InsertSubscription e (some id) setOk).repo.GetSubscriptionByID id
            getOk dbOk2 setOk2).value = Except.ok x
        ∧ x.ID = id ∧ x.ServiceName = e.ServiceName ∧ x.Price = e.Price
        ∧ x.UserID = e.UserID ∧ x.StartDate = e.StartDate ∧ x.EndDate = e.EndDate := by
  refine ⟨(insert_value r e (some id) setOk).1, { e with ID := id }, ?_, rfl, rfl, rfl, rfl,
    rfl, rfl⟩
  have hstore : selectByID (r.InsertSubscription e (some id) setOk).repo.db id
      = some { e with ID := id } := by
    rw [(insert_value r e (some id) setOk).2]
    exact selectByID_insertRow_fresh r.db id e hfresh
  have hhit : (r.InsertSubscription e (some id) setOk).repo.cacheHit id getOk
        = some { e with ID := id }
      ∨ (r.InsertSubscription e (some id) setOk).repo.cacheHit id getOk = none := by
    rw [cacheHit_eq, insert_cached]
    cases getOk with
    | false => right; rfl
    | true =>
      by_cases hset : setOk = true ∧ id = id ∧ r.cache.isSome = true
      · left
        rw [if_pos rfl, if_pos hset]
      · right
        rw [if_pos rfl, if_neg hset]
        rcases hcache with h | h | h
        · cases hcv : r.cache with
          | none => simp [SubscriptionRepository.cached, hcv]
          | some c => exact absurd ⟨h, rfl, by simp [hcv]⟩ hset
        · exact h
        · cases h
  rw [get_value]
  rcases hhit with h | h
  · rw [h]
  · rw [h, hstore, hdb2]
    rfl

/-- Witness of C11: a second subscription inserted under identifier 2 with the
cache write failing, then read with the cache lookup succeeding (a miss) and
the store answering. -/
theorem insert_then_get_round_trip_witness :
    (cachedRepo.InsertSubscription netflixRaised (some 2) false).value = Except.ok 2
      ∧ ∃ x, ((cachedRepo.InsertSubscription netflixRaised (some 2) false).repo.GetSubscriptionByID
            2 true true true).value = Except.ok x
        ∧ x.ID = 2 ∧ x.ServiceName = netflixRaised.ServiceName
        ∧ x.Price = netflixRaised.Price ∧ x.UserID = netflixRaised.UserID
        ∧ x.StartDate = netflixRaised.StartDate ∧ x.EndDate = netflixRaised.EndDate :=
  insert_then_get_round_trip cachedRepo netflixRaised 2 false true true true
    (by decide) (Or.inr (Or.inl (by decide))) rfl

end TestTask
